import Mathlib

/-!
Shallow embedding of the housing-simulation engine (src/simulate.py and
src/config.py) and proofs about it.

Modelling conventions:
* Python floats are modelled as exact rationals (`ℚ`).
* Python dicts holding heterogeneous values (`fixed_params`,
  `simulation_params`) are association lists `List (String × Val)`; a
  `dict[key]` access that can raise `KeyError`/`TypeError`/`IndexError`/
  `ZeroDivisionError` is modelled in the `Option` monad (`none` = the Python
  exception).
* `random.gauss(mu, sigma)` draws are modelled by an explicit stream
  `draws : ℕ → ℚ` of standard-normal samples consumed in program order; the
  sampled value is `mu + sigma * draws k`.
* `CONFIG` is modelled in its state at the time `generate_params` runs in
  `main`, i.e. after `CONFIG.pop("fixed_parameters")`; the popped record is
  `shippedFixedParams`.
-/

/-- A Python value stored in one of the simulation dictionaries: a number
(int or float, both exact here), a boolean, or a list of yearly numbers. -/
inductive Val
  | num (q : ℚ)
  | bool (b : Bool)
  | seq (l : List ℚ)
deriving DecidableEq

/-- Python truthiness of a `Val` (used by `if param_fixed_value:` and the
scenario flags): nonzero numbers, `True`, and non-empty lists are truthy. -/
def Val.truthy : Val → Bool
  | Val.num q => q != 0
  | Val.bool b => b
  | Val.seq l => !l.isEmpty

/-- Read a numeric value out of a `Val`; anything else is a Python type
error, modelled as `none`. -/
def Val.toQ : Val → Option ℚ
  | Val.num q => some q
  | _ => none

/-- Read a yearly list out of a `Val` (iterating or indexing anything else
is a Python type error, modelled as `none`). -/
def Val.toSeq : Val → Option (List ℚ)
  | Val.seq l => some l
  | _ => none

/-- Read a non-negative Python int out of a `Val` (used for `n_years`,
`loan_term_years`, `n_years_rental_move`). -/
def Val.toN : Val → Option ℕ
  | Val.num q => if q.den = 1 ∧ 0 ≤ q.num then some q.num.toNat else none
  | _ => none

/-- Numeric `dict[key]` access. -/
def lookupQ (m : List (String × Val)) (key : String) : Option ℚ :=
  (List.lookup key m).bind Val.toQ

/-- Integer `dict[key]` access. -/
def lookupN (m : List (String × Val)) (key : String) : Option ℕ :=
  (List.lookup key m).bind Val.toN

/-- List-valued `dict[key]` access. -/
def lookupSeq (m : List (String × Val)) (key : String) : Option (List ℚ) :=
  (List.lookup key m).bind Val.toSeq

/-- Python float division: dividing by zero raises `ZeroDivisionError`,
modelled as `none`. -/
def qdiv (a b : ℚ) : Option ℚ := if b = 0 then none else some (a / b)

/-- Decides whether the character list `sub` occurs contiguously in `l`,
checking a prefix match at every suffix. -/
def listIsPref : List Char → List Char → Bool
  | [], _ => true
  | _ :: _, [] => false
  | a :: as, b :: bs => a == b && listIsPref as bs

/-- Helper for `containsSubstr`: scans every suffix of the second list. -/
def listContains (sub : List Char) : List Char → Bool
  | [] => sub.isEmpty
  | c :: rest => listIsPref sub (c :: rest) || listContains sub rest

/-- Python's substring test `sub in s` on strings. -/
def containsSubstr (sub s : String) : Bool := listContains sub.data s.data

/-- Python `dict` assignment `m[key] = v` for a key already present:
replaces the value in place, preserving insertion order. -/
def updateAssoc : List (String × Val) → String → Val → List (String × Val)
  | [], _, _ => []
  | (k, v) :: rest, key, nv =>
    if k = key then (k, nv) :: rest else (k, v) :: updateAssoc rest key nv

/-- The constant `MONTHS_PER_YEAR` from config.py (12.0; every use is
integer-valued so it is modelled as the natural number 12 where it appears
as an exponent count and as the rational 12 in arithmetic). -/
def MONTHS_PER_YEAR : ℕ := 12

/-- The `fixed_parameters` record of config.py, exactly the keys that file
defines (this is what `CONFIG.pop("fixed_parameters")` returns in `main`
when no interactive overrides are given). -/
def shippedFixedParams : List (String × Val) :=
  [ ("n_simulations", Val.num 1),
    ("n_years", Val.num 20),
    ("down_payment", Val.num (2/10)),
    ("loan_term_years", Val.num 15),
    ("mortgage_to_income_ratio", Val.num (25/100)),
    ("n_years_rental_move", Val.num 4),
    ("assume_good_loan_found", Val.bool false),
    ("assume_great_loan_found", Val.bool false),
    ("assume_good_housing_growth", Val.bool false),
    ("assume_great_housing_growth", Val.bool false),
    ("simulate_refinancing", Val.bool false) ]

/-- The distribution table of config.py: `(name, mean, std_dev)` per
variable, in the file's insertion order, after `fixed_parameters` has been
popped by `main`. -/
def CONFIG : List (String × ℚ × ℚ) :=
  [ ("mortgage_rate", 6459/100000, 40/10000),
    ("property_price", 750000, 50000),
    ("annual_inflation", 239/10000, 123/10000),
    ("annual_stock_market_return", 9/100, 15/100),
    ("annual_housing_market_return", 38/1000, 5/100),
    ("annual_homeowner_cost", 17500, 1500),
    ("annual_rental_market_price", 3095*12, 175*12),
    ("annual_rental_market_price_growth_rate", 239/10000, 123/10000),
    ("annual_rental_cost", 3095*12, 175*12),
    ("annual_rental_cost_growth_rate", 6/100, 3/100),
    ("amortized_annual_moving_cost", 400, 100),
    ("amortized_annual_moving_saving", 1000, 200) ]

/-- One `random.gauss(mu, sigma)` draw, given the standard-normal sample
`z` the generator produced at that point of the stream. -/
def gauss (mean std_dev z : ℚ) : ℚ := mean + std_dev * z

/-- `n` consecutive `random.gauss` draws starting at stream position `k`
(the per-year loop of `generate_params`, simulate.py lines 92-95). -/
def gaussList (mean std_dev : ℚ) (draws : ℕ → ℚ) (k n : ℕ) : List ℚ :=
  (List.range n).map (fun j => gauss mean std_dev (draws (k + j)))

/-- Scenario shift applied to a variable's mean (simulate.py lines 72-82):
the mortgage-rate mean drops by one or two std-devs under the good/great
loan flags, the housing-return mean rises symmetrically; `elif` means the
great flag takes precedence and the good flag is only read if it is falsy. -/
def adjustMean (fixed_params : List (String × Val)) (name : String)
    (mean std_dev : ℚ) : Option ℚ :=
  if name = "mortgage_rate" then
    match List.lookup "assume_great_loan_found" fixed_params with
    | none => none
    | some great =>
      if great.truthy then some (mean - std_dev * 2)
      else
        match List.lookup "assume_good_loan_found" fixed_params with
        | none => none
        | some good => if good.truthy then some (mean - std_dev) else some mean
  else if name = "annual_housing_market_return" then
    match List.lookup "assume_great_housing_growth" fixed_params with
    | none => none
    | some great =>
      if great.truthy then some (mean + std_dev * 2)
      else
        match List.lookup "assume_good_housing_growth" fixed_params with
        | none => none
        | some good => if good.truthy then some (mean + std_dev) else some mean
  else some mean

/-- Sampling of one variable (simulate.py lines 84-97): a name containing
"annual" with no paired `<name>_growth_rate` entry in `CONFIG` gets one
independent draw per year (`n_years` draws, or `n_years - 1` if the name
itself contains "growth_rate"); every other name gets a single scalar
draw. Returns the drawn `Val` together with the advanced stream position. -/
def sampleValue (fixed_params : List (String × Val)) (draws : ℕ → ℚ)
    (name : String) (mean std_dev : ℚ) (k : ℕ) : Option (Val × ℕ) :=
  if containsSubstr "annual" name
      && !(CONFIG.any (fun e => e.1 == name ++ "_growth_rate")) then
    match lookupN fixed_params "n_years" with
    | none => none
    | some n_years =>
      let n := if containsSubstr "growth_rate" name then n_years - 1 else n_years
      some (Val.seq (gaussList mean std_dev draws k n), k + n)
  else some (Val.num (gauss mean std_dev (draws k)), k + 1)

/-- Handling of a single `CONFIG` entry in the first loop of
`generate_params` (simulate.py lines 61-97): a truthy user override
(`if param_fixed_value:`) is stored verbatim and sampling is skipped (and
no random draw is consumed); otherwise — including when the override value
is falsy, e.g. `0` — the variable is sampled after the scenario mean
shift. Returns the stored `Val` and the advanced stream position. -/
def processEntry (fixed_params : List (String × Val)) (draws : ℕ → ℚ)
    (name : String) (mean std_dev : ℚ) (k : ℕ) : Option (Val × ℕ) :=
  match List.lookup name fixed_params with
  | some v =>
    if v.truthy then some (v, k)
    else
      match adjustMean fixed_params name mean std_dev with
      | none => none
      | some mean1 => sampleValue fixed_params draws name mean1 std_dev k
  | none =>
    match adjustMean fixed_params name mean std_dev with
    | none => none
    | some mean1 => sampleValue fixed_params draws name mean1 std_dev k

/-- First loop of `generate_params` (simulate.py lines 61-99): processes
each `CONFIG` entry in order, threading the random-stream position. -/
def firstPass (fixed_params : List (String × Val)) (draws : ℕ → ℚ) :
    List (String × ℚ × ℚ) → ℕ → Option (List (String × Val) × ℕ)
  | [], k => some ([], k)
  | (name, mean, std_dev) :: rest, k =>
    match processEntry fixed_params draws name mean std_dev k with
    | none => none
    | some (value, k1) =>
      (firstPass fixed_params draws rest k1).map
        (fun p => ((name, value) :: p.1, p.2))

/-- Growth-chain expansion loop (simulate.py lines 110-118): walks the
growth-rate list, compounding `current *= (1 + rate)`, except that for
`annual_rental_cost`, whenever `(len(param_value) + 1) % n_years_rental_move
== 0`, the value is reset to `annual_rental_market_price[i + 1]` instead.
`value` is the accumulated Python list, `i` the enumerate index. A missing
`n_years_rental_move` key, a zero move interval (Python `%` by zero), a
missing anchor list or an out-of-range anchor index are errors (`none`). -/
def expandGrowthLoop (fixed_params : List (String × Val))
    (simulation_params : List (String × Val)) (name : String) :
    List ℚ → ℕ → ℚ → List ℚ → Option (List ℚ)
  | [], _, _, value => some value
  | g :: rest, i, current, value =>
    if name = "annual_rental_cost" then
      match lookupN fixed_params "n_years_rental_move" with
      | none => none
      | some move =>
        if move = 0 then none
        else if (value.length + 1) % move = 0 then
          match lookupSeq simulation_params "annual_rental_market_price" with
          | none => none
          | some anchor =>
            match anchor[i + 1]? with
            | none => none
            | some a =>
              expandGrowthLoop fixed_params simulation_params name rest (i + 1) a
                (value ++ [a])
        else
          expandGrowthLoop fixed_params simulation_params name rest (i + 1)
            (current * (1 + g)) (value ++ [current * (1 + g)])
    else
      expandGrowthLoop fixed_params simulation_params name rest (i + 1)
        (current * (1 + g)) (value ++ [current * (1 + g)])

/-- Expansion of one growth-linked variable (simulate.py lines 108-118):
starts from the singleton list holding the seed draw and runs the loop. -/
def expandGrowth (fixed_params simulation_params : List (String × Val))
    (name : String) (seed : ℚ) (rates : List ℚ) : Option (List ℚ) :=
  expandGrowthLoop fixed_params simulation_params name rates 0 seed [seed]

/-- Second loop of `generate_params` (simulate.py lines 101-120): for every
dict key in insertion order, if a `<name>_growth_rate` entry exists, the
scalar seed for `name` is expanded into a full yearly list and written
back; other keys are left untouched. -/
def secondPass (fixed_params : List (String × Val)) :
    List String → List (String × Val) → Option (List (String × Val))
  | [], simulation_params => some simulation_params
  | name :: rest, simulation_params =>
    match List.lookup (name ++ "_growth_rate") simulation_params with
    | none => secondPass fixed_params rest simulation_params
    | some gv =>
      match gv.toSeq with
      | none => none
      | some rates =>
        match List.lookup name simulation_params with
        | none => none
        | some cur =>
          match cur.toQ with
          | none => none
          | some seed =>
            match expandGrowth fixed_params simulation_params name seed rates with
            | none => none
            | some value =>
              secondPass fixed_params rest
                (updateAssoc simulation_params name (Val.seq value))

/-- `generate_params` (simulate.py lines 54-122) as run from `main`: the
first sampling pass over `CONFIG` followed by the growth-chain second pass
over the produced keys. -/
def generate_params (fixed_params : List (String × Val)) (draws : ℕ → ℚ) :
    Option (List (String × Val)) :=
  match firstPass fixed_params draws CONFIG 0 with
  | none => none
  | some (sp, _) => secondPass fixed_params (sp.map Prod.fst) sp

/-- `calculate_monthly_mortgage_principal_and_interest` (simulate.py lines
125-136): level-payment amortization `m = p(i(1+i)^n)/((1+i)^n - 1)` with
`p = price(1 - down)`, `i = rate/12`, `n = term*12`. No special case for a
zero rate: there the denominator `(1+i)^n - 1` is zero and Python raises
`ZeroDivisionError` (`none`). Returns `(m, p, i, n)` like the source. -/
def calculate_monthly_mortgage_principal_and_interest (property_price
    mortgage_rate : ℚ) (loan_term_years : ℕ) (down_payment : ℚ) :
    Option (ℚ × ℚ × ℚ × ℕ) :=
  let p := property_price * (1 - down_payment)
  let i := mortgage_rate / (MONTHS_PER_YEAR : ℚ)
  let n := loan_term_years * MONTHS_PER_YEAR
  (qdiv (p * (i * (1 + i) ^ n)) ((1 + i) ^ n - 1)).map (fun m => (m, p, i, n))

/-- `calculate_remaining_mortgage_balance` (simulate.py lines 139-145):
`b = p((1+i)^n - (1+i)^s)/(-1 + (1+i)^n)`; at `i = 0` the denominator is
zero and Python raises `ZeroDivisionError` (`none`). -/
def calculate_remaining_mortgage_balance (p i : ℚ) (n s : ℕ) : Option ℚ :=
  qdiv (p * ((1 + i) ^ n - (1 + i) ^ s)) (-1 + (1 + i) ^ n)

/-- Body of the yearly loop in `calculate_stock_assets` (simulate.py lines
160-169) before the market-return compounding: computes the year's surplus
cash `income*(1 - taxes_ratio) - cost` (plus the initial net worth in year
0), adds a positive surplus to the stock value, and on a non-positive
surplus leaves the value unchanged and records the printed warning's
`abs(surplus_cash)` instead. Returns the updated `(value, warnings)`. -/
def stockYearUpdate (annual_income taxes_ratio initial_net_worth : ℚ)
    (i : ℕ) (cost v : ℚ) (ws : List ℚ) : ℚ × List ℚ :=
  let surplus0 := annual_income * (1 - taxes_ratio) - cost
  let surplus_cash := if i = 0 then surplus0 + initial_net_worth else surplus0
  if surplus_cash > 0 then (v + surplus_cash, ws)
  else (v, ws ++ [|surplus_cash|])

/-- The `for i in range(n_years)` loop of `calculate_stock_assets`
(simulate.py lines 159-171) over the remaining index list: reads
`annual_total_costs[i]`, applies `stockYearUpdate`, then compounds by
`(1 + annual_stock_market_returns[i])`. Out-of-range indexing is a Python
`IndexError` (`none`). -/
def stockLoop (annual_income taxes_ratio initial_net_worth : ℚ)
    (annual_total_costs annual_stock_market_returns : List ℚ) :
    List ℕ → ℚ → List ℚ → Option (ℚ × List ℚ)
  | [], v, ws => some (v, ws)
  | i :: rest, v, ws =>
    match annual_total_costs[i]? with
    | none => none
    | some cost =>
      let vw := stockYearUpdate annual_income taxes_ratio initial_net_worth i
        cost v ws
      match annual_stock_market_returns[i]? with
      | none => none
      | some r =>
        stockLoop annual_income taxes_ratio initial_net_worth
          annual_total_costs annual_stock_market_returns rest
          (vw.1 * (1 + r)) vw.2

/-- `calculate_stock_assets` (simulate.py lines 148-173). In addition to
the final stock value the model returns the list of warning amounts the
source would print (one `abs(surplus_cash)` per non-positive-surplus
year); the Python return value corresponds to the first component. -/
def calculate_stock_assets (annual_income : ℚ) (annual_total_costs : List ℚ)
    (fixed_params simulation_params : List (String × Val)) :
    Option (ℚ × List ℚ) :=
  match lookupN fixed_params "n_years" with
  | none => none
  | some n_years =>
    match lookupQ fixed_params
        "taxes_and_nonhousing_cost_of_living_to_income_ratio" with
    | none => none
    | some taxes_ratio =>
      match lookupQ fixed_params "initial_net_worth" with
      | none => none
      | some initial_net_worth =>
        match lookupSeq simulation_params "annual_stock_market_return" with
        | none => none
        | some annual_stock_market_returns =>
          stockLoop annual_income taxes_ratio initial_net_worth
            annual_total_costs annual_stock_market_returns
            (List.range n_years) 0 []

/-- The homeowner cost loop of `run_homeowner_simulation` (simulate.py
lines 200-208) over the remaining index list: each year pays the carrying
cost `annual_homeowner_costs[i]`, plus the annual mortgage payment only
for years `i < loan_term_years`. -/
def buildHomeownerCosts (annual_homeowner_costs : List ℚ) (annual_mpi : ℚ)
    (loan_term_years : ℕ) : List ℕ → Option (List ℚ)
  | [] => some []
  | i :: rest =>
    match annual_homeowner_costs[i]? with
    | none => none
    | some c =>
      (buildHomeownerCosts annual_homeowner_costs annual_mpi loan_term_years
        rest).map (fun cs =>
          (if i < loan_term_years then c + annual_mpi else c) :: cs)

/-- The annual-income determination of `run_homeowner_simulation`
(simulate.py lines 191-193): a truthy `annual_income` override is used
directly; otherwise — including a falsy override — the income is derived
as `annual_mpi / mortgage_to_income_ratio` (with a zero ratio raising
`ZeroDivisionError`). -/
def homeownerIncome (fixed_params : List (String × Val)) (annual_mpi : ℚ) :
    Option ℚ :=
  match List.lookup "annual_income" fixed_params with
  | some v =>
    if v.truthy then v.toQ
    else
      match lookupQ fixed_params "mortgage_to_income_ratio" with
      | none => none
      | some ratio => qdiv annual_mpi ratio
  | none =>
    match lookupQ fixed_params "mortgage_to_income_ratio" with
    | none => none
    | some ratio => qdiv annual_mpi ratio

/-- The remaining-balance computation of `run_homeowner_simulation`
(simulate.py lines 214-219): if payments remain past the horizon
(`max((loan_term_years - n_years) * 12, 0) > 0`), the balance after
`n_payments_total - n_payments_remaining` payments, else zero. -/
def remainingBalanceAtHorizon (principal interest_rate : ℚ)
    (n_payments_total loan_term_years n_years : ℕ) : Option ℚ :=
  let n_payments_remaining : ℤ :=
    max (((loan_term_years : ℤ) - (n_years : ℤ)) * (MONTHS_PER_YEAR : ℤ)) 0
  if 0 < n_payments_remaining then
    calculate_remaining_mortgage_balance principal interest_rate
      n_payments_total (n_payments_total - n_payments_remaining.toNat)
  else some 0

/-- `run_homeowner_simulation` (simulate.py lines 176-223). Returns
`(end_property_value, annual_total_homeowner_costs,
remaining_mortgage_balance, annual_income, stock_assets)` where
`stock_assets` carries its warning list. -/
def run_homeowner_simulation (fixed_params simulation_params :
    List (String × Val)) : Option (ℚ × List ℚ × ℚ × ℚ × (ℚ × List ℚ)) :=
  match lookupQ simulation_params "property_price" with
  | none => none
  | some property_price =>
    match lookupQ simulation_params "mortgage_rate" with
    | none => none
    | some mortgage_rate =>
      match lookupN fixed_params "loan_term_years" with
      | none => none
      | some loan_term_years =>
        match lookupQ fixed_params "down_payment" with
        | none => none
        | some down_payment =>
          match calculate_monthly_mortgage_principal_and_interest
              property_price mortgage_rate loan_term_years down_payment with
          | none => none
          | some (m, principal, interest_rate, n_payments_total) =>
            let annual_mpi := m * (MONTHS_PER_YEAR : ℚ)
            match homeownerIncome fixed_params annual_mpi with
            | none => none
            | some annual_income =>
              match lookupSeq simulation_params "annual_housing_market_return" with
              | none => none
              | some housing_returns =>
                let end_property_value :=
                  housing_returns.foldl (fun v r => v * (1 + r)) property_price
                match lookupSeq simulation_params "annual_homeowner_cost" with
                | none => none
                | some annual_homeowner_costs =>
                  match lookupN fixed_params "n_years" with
                  | none => none
                  | some n_years =>
                    match buildHomeownerCosts annual_homeowner_costs
                        annual_mpi loan_term_years (List.range n_years) with
                    | none => none
                    | some costs0 =>
                      match costs0 with
                      | [] => none
                      | c0 :: crest =>
                        let annual_total_homeowner_costs :=
                          (c0 + property_price * down_payment) :: crest
                        match remainingBalanceAtHorizon principal
                            interest_rate n_payments_total loan_term_years
                            n_years with
                        | none => none
                        | some remaining_mortgage_balance =>
                          match calculate_stock_assets annual_income
                              annual_total_homeowner_costs fixed_params
                              simulation_params with
                          | none => none
                          | some stock_assets =>
                            some (end_property_value,
                              annual_total_homeowner_costs,
                              remaining_mortgage_balance, annual_income,
                              stock_assets)

/-- The renter cost loop of `run_renter_simulation` (simulate.py lines
237-239) over the remaining index list: each year pays
`annual_rental_costs[i] + moving_costs[i] - moving_savings[i]`. -/
def buildRenterCosts (annual_rental_costs moving_costs moving_savings :
    List ℚ) : List ℕ → Option (List ℚ)
  | [] => some []
  | i :: rest =>
    match annual_rental_costs[i]?, moving_costs[i]?, moving_savings[i]? with
    | some rc, some mc, some ms =>
      (buildRenterCosts annual_rental_costs moving_costs moving_savings
        rest).map (fun cs => (rc + mc - ms) :: cs)
    | _, _, _ => none

/-- `run_renter_simulation` (simulate.py lines 226-243): builds the yearly
renter cost list (rent + amortized moving cost - amortized moving saving)
and invests the surplus of `annual_income` over the RENTER's own yearly
cost; the `annual_total_homeowner_costs` argument is accepted but never
read, exactly as in the source. Returns `(stock_assets, renter_costs)`,
with the stock value carrying its warning list. -/
def run_renter_simulation (fixed_params simulation_params :
    List (String × Val)) (annual_total_homeowner_costs : List ℚ)
    (annual_income : ℚ) : Option ((ℚ × List ℚ) × List ℚ) :=
  match lookupSeq simulation_params "annual_rental_cost" with
  | none => none
  | some annual_rental_costs =>
    match lookupSeq simulation_params "amortized_annual_moving_cost" with
    | none => none
    | some moving_costs =>
      match lookupSeq simulation_params "amortized_annual_moving_saving" with
      | none => none
      | some moving_savings =>
        match lookupN fixed_params "n_years" with
        | none => none
        | some n_years =>
          match buildRenterCosts annual_rental_costs moving_costs
              moving_savings (List.range n_years) with
          | none => none
          | some annual_total_renter_costs =>
            match calculate_stock_assets annual_income
                annual_total_renter_costs fixed_params simulation_params with
            | none => none
            | some stock_assets =>
              some (stock_assets, annual_total_renter_costs)

/-- `liquidate_all_assets` (simulate.py lines 246-266): sells everything,
applying the 15% long-term capital-gains rate, the married/single property
exemption and the 7.5% selling cost. Pure arithmetic, no failure. -/
def liquidate_all_assets (is_married : Bool) (property_price
    end_property_value remaining_mortgage_balance homeowner_stock_assets
    renter_stock_assets : ℚ) : ℚ × ℚ :=
  let long_term_capital_gains_tax_rate : ℚ := 15/100
  let property_capital_gain := end_property_value - property_price
  let exempt : ℚ := if is_married then 500000 else 250000
  let taxable := max (property_capital_gain - exempt) 0
  let property_capital_gain_total_tax :=
    taxable * long_term_capital_gains_tax_rate
  let selling_cost_amount := end_property_value * (75/1000)
  (end_property_value - remaining_mortgage_balance - selling_cost_amount
      - property_capital_gain_total_tax
      + homeowner_stock_assets * (1 - long_term_capital_gains_tax_rate),
    renter_stock_assets * (1 - long_term_capital_gains_tax_rate))

/-- The backward division loop of `dollars_today` (simulate.py lines
276-277): successively divides by `(1 + inflation_value)` along the given
(already reversed) list; dividing by zero is a Python error (`none`). -/
def deflateLoop : List ℚ → ℚ → Option ℚ
  | [], amount => some amount
  | x :: rest, amount =>
    match qdiv amount (1 + x) with
    | none => none
    | some a => deflateLoop rest a

/-- `dollars_today` (simulate.py lines 269-279): rewinds a nominal amount
through the trial's yearly inflation values in reverse chronological
order. -/
def dollars_today (simulation_params : List (String × Val)) (amount : ℚ) :
    Option ℚ :=
  match lookupSeq simulation_params "annual_inflation" with
  | none => none
  | some annual_inflation => deflateLoop annual_inflation.reverse amount

/-- `run_simulation` (simulate.py lines 282-320): one full trial. The
`debug_mode` read on line 288 and the `married_at_simulation_end` read on
line 307 are `dict[...]` accesses that raise `KeyError` when absent. -/
def run_simulation (fixed_params : List (String × Val)) (draws : ℕ → ℚ) :
    Option (ℚ × ℚ) :=
  match generate_params fixed_params draws with
  | none => none
  | some simulation_params =>
    match List.lookup "debug_mode" fixed_params with
    | none => none
    | some _is_debug =>
      match run_homeowner_simulation fixed_params simulation_params with
      | none => none
      | some (end_property_value, annual_total_homeowner_costs,
          remaining_mortgage_balance, annual_income, homeowner_stock) =>
        match run_renter_simulation fixed_params simulation_params
            annual_total_homeowner_costs annual_income with
        | none => none
        | some (renter_stock, _annual_total_renter_costs) =>
          match List.lookup "married_at_simulation_end" fixed_params with
          | none => none
          | some married =>
            match lookupQ simulation_params "property_price" with
            | none => none
            | some property_price =>
              let nw := liquidate_all_assets married.truthy property_price
                end_property_value remaining_mortgage_balance
                homeowner_stock.1 renter_stock.1
              match dollars_today simulation_params nw.1 with
              | none => none
              | some homeowner_today =>
                match dollars_today simulation_params nw.2 with
                | none => none
                | some renter_today => some (homeowner_today, renter_today)

/-- The paired comparison list of `main` (simulate.py line 337): for each
`(i, homeowner_net_worth)` of `enumerate(homeowner_net_worths)`, the
Python boolean `homeowner_net_worth > renter_net_worths[i]` as 0/1;
indexing a too-short renter list raises `IndexError`. -/
def winFlags (renter_net_worths : List ℚ) : List (ℕ × ℚ) → Option (List ℚ)
  | [] => some []
  | (i, h) :: rest =>
    match renter_net_worths[i]? with
    | none => none
    | some r =>
      (winFlags renter_net_worths rest).map
        (fun fs => (if h > r then (1 : ℚ) else 0) :: fs)

/-- The win-rate computation of `main` (simulate.py line 337):
`sum(homeowner_net_worth > renter_net_worths[i] for i, ...)/n_simulations`,
with Python booleans summed as 0/1 and the division raising on
`n_simulations = 0`. -/
def homeowner_beats_renter_rate (homeowner_net_worths renter_net_worths :
    List ℚ) (n_simulations : ℕ) : Option ℚ :=
  match winFlags renter_net_worths homeowner_net_worths.enum with
  | none => none
  | some flags => qdiv flags.sum (n_simulations : ℚ)

/-- Modelled from the spec's words (section 4.4), for comparison with the
source's `run_renter_simulation`: identical except that the surplus
invested each year is computed relative to the HOMEOWNER's total cost for
that year, i.e. the pooled equity balance is fed
`annual_total_homeowner_costs` instead of the renter's own cost list. -/
def run_renter_simulation_spec (fixed_params simulation_params :
    List (String × Val)) (annual_total_homeowner_costs : List ℚ)
    (annual_income : ℚ) : Option ((ℚ × List ℚ) × List ℚ) :=
  match lookupSeq simulation_params "annual_rental_cost" with
  | none => none
  | some annual_rental_costs =>
    match lookupSeq simulation_params "amortized_annual_moving_cost" with
    | none => none
    | some moving_costs =>
      match lookupSeq simulation_params "amortized_annual_moving_saving" with
      | none => none
      | some moving_savings =>
        match lookupN fixed_params "n_years" with
        | none => none
        | some n_years =>
          match buildRenterCosts annual_rental_costs moving_costs
              moving_savings (List.range n_years) with
          | none => none
          | some annual_total_renter_costs =>
            match calculate_stock_assets annual_income
                annual_total_homeowner_costs fixed_params
                simulation_params with
            | none => none
            | some stock_assets =>
              some (stock_assets, annual_total_renter_costs)

/-- Reference recursion for the pooled-equity balance: starting from value
`v` in year `i`, each `(cost, market_return)` pair contributes the surplus
`income_net - cost` (plus the initial net worth in year 0) when positive,
then compounds by `(1 + market_return)`. With `income_net = income` this
is the surplus rule exactly as the spec words it; with
`income_net = income * (1 - taxes_ratio)` it is the source's rule. -/
def stockSpecGo (income_net initial_net_worth : ℚ) :
    ℕ → ℚ → List (ℚ × ℚ) → ℚ
  | _, v, [] => v
  | i, v, (c, r) :: rest =>
    let s := income_net - c + (if i = 0 then initial_net_worth else 0)
    stockSpecGo income_net initial_net_worth (i + 1)
      ((if s > 0 then v + s else v) * (1 + r)) rest

/-- Reference count of paired wins for the aggregate report: the number of
trials whose homeowner net worth strictly exceeds the same trial's renter
net worth. -/
def countWins (homeowner_net_worths renter_net_worths : List ℚ) : ℕ :=
  (homeowner_net_worths.zip renter_net_worths).countP
    (fun p => decide (p.2 < p.1))

/-- The spec's closed form for the zero-rate monthly payment,
`P * (1 - d) / (T * 12)` (spec sections 4.2 and 8). -/
def monthly_payment_zero_rate_spec (price : ℚ) (term_years : ℕ)
    (down_payment : ℚ) : ℚ :=
  price * (1 - down_payment) / ((term_years : ℚ) * 12)

/-- The spec's closed form for the zero-rate remaining balance,
`P * (1 - s / n)` (spec section 4.2). -/
def remaining_balance_zero_rate_spec (principal : ℚ) (n s : ℕ) : ℚ :=
  principal * (1 - (s : ℚ) / (n : ℚ))

/-- The all-zero draw stream: every `random.gauss(mu, sigma)` call returns
its mean. -/
def zeroDraws : ℕ → ℚ := fun _ => 0

/-- The simulation-parameter dict produced by `generate_params` on the
shipped configuration under the all-zero draw stream. -/
def spZero : List (String × Val) :=
  (generate_params shippedFixedParams zeroDraws).getD []

/-- The realized `annual_rental_market_price` anchor series inside
`spZero`. -/
def anchorZero : List ℚ :=
  match List.lookup "annual_rental_market_price" spZero with
  | some (Val.seq l) => l
  | _ => []

set_option maxRecDepth 8000

lemma lookup_mem {l : List (String × Val)} {k : String} {v : Val}
    (h : List.lookup k l = some v) : (k, v) ∈ l := by
  induction l with
  | nil => simp [List.lookup] at h
  | cons e rest ih =>
    obtain ⟨k2, v2⟩ := e
    simp only [List.lookup] at h
    cases hk : (k == k2) with
    | true =>
      rw [hk] at h
      simp only [Option.some.injEq] at h
      have hk2 : k = k2 := by simpa using hk
      subst hk2
      subst h
      exact List.mem_cons_self _ _
    | false =>
      rw [hk] at h
      exact List.mem_cons_of_mem _ (ih h)

lemma lookup_none_of_not_mem {l : List (String × Val)} {k : String}
    (h : k ∉ l.map Prod.fst) : List.lookup k l = none := by
  induction l with
  | nil => rfl
  | cons e rest ih =>
    obtain ⟨k2, v2⟩ := e
    simp only [List.map_cons, List.mem_cons, not_or] at h
    simp only [List.lookup]
    have hb : (k == k2) = false := by
      simp only [beq_eq_false_iff_ne, ne_eq]
      exact h.1
    rw [hb]
    exact ih h.2

lemma lookup_updateAssoc_ne (l : List (String × Val)) (key x : String)
    (nv : Val) (h : x ≠ key) :
    List.lookup x (updateAssoc l key nv) = List.lookup x l := by
  induction l with
  | nil => rfl
  | cons e rest ih =>
    obtain ⟨k2, v2⟩ := e
    by_cases hk : k2 = key
    · subst hk
      simp only [updateAssoc, if_pos rfl, List.lookup]
      have hb : (x == k2) = false := by
        simp only [beq_eq_false_iff_ne, ne_eq]
        exact h
      rw [hb]
    · simp only [updateAssoc, if_neg hk, List.lookup]
      cases hx : (x == k2) with
      | true => rfl
      | false => exact ih

lemma map_fst_updateAssoc (l : List (String × Val)) (key : String)
    (nv : Val) : (updateAssoc l key nv).map Prod.fst = l.map Prod.fst := by
  induction l with
  | nil => rfl
  | cons e rest ih =>
    obtain ⟨k2, v2⟩ := e
    by_cases hk : k2 = key
    · simp [updateAssoc, if_pos hk]
    · simp [updateAssoc, if_neg hk, ih]

lemma mem_updateAssoc {l : List (String × Val)} {key nm : String}
    {nv v : Val} (h : (nm, v) ∈ updateAssoc l key nv) :
    (nm = key ∧ v = nv) ∨ (nm, v) ∈ l := by
  induction l with
  | nil => simp [updateAssoc] at h
  | cons e rest ih =>
    obtain ⟨k2, v2⟩ := e
    by_cases hk : k2 = key
    · rw [updateAssoc, if_pos hk] at h
      rcases List.mem_cons.mp h with h1 | h1
      · left
        obtain ⟨h2, h3⟩ := Prod.mk.injEq .. ▸ h1
        exact ⟨h2.symm ▸ hk, by simpa using h3⟩
      · right; exact List.mem_cons_of_mem _ h1
    · rw [updateAssoc, if_neg hk] at h
      rcases List.mem_cons.mp h with h1 | h1
      · right; exact List.mem_cons.mpr (Or.inl h1)
      · rcases ih h1 with h2 | h2
        · exact Or.inl h2
        · exact Or.inr (List.mem_cons_of_mem _ h2)

lemma listIsPref_refl : ∀ l : List Char, listIsPref l l = true
  | [] => rfl
  | a :: as => by simp [listIsPref, listIsPref_refl as]

lemma listContains_self : ∀ l : List Char, listContains l l = true
  | [] => rfl
  | a :: as => by simp [listContains, listIsPref_refl]

lemma listContains_append_left (sub l2 : List Char)
    (h : listContains sub l2 = true) :
    ∀ l1, listContains sub (l1 ++ l2) = true
  | [] => h
  | c :: l1 => by
    simp only [List.cons_append, listContains, Bool.or_eq_true]
    exact Or.inr (listContains_append_left sub l2 h l1)

/-- Any string extended with the `_growth_rate` suffix contains the
substring `growth_rate`. -/
lemma containsSubstr_growth (s : String) :
    containsSubstr "growth_rate" (s ++ "_growth_rate") = true := by
  unfold containsSubstr
  rw [String.data_append]
  exact listContains_append_left _ _ (by decide) _

lemma gaussList_length (mean std_dev : ℚ) (draws : ℕ → ℚ) (k n : ℕ) :
    (gaussList mean std_dev draws k n).length = n := by
  simp [gaussList]


lemma expandGrowthLoop_length (fp sp : List (String × Val)) (name : String) :
    ∀ (rates : List ℚ) (i : ℕ) (current : ℚ) (value out : List ℚ),
      expandGrowthLoop fp sp name rates i current value = some out →
      out.length = value.length + rates.length := by
  intro rates
  induction rates with
  | nil =>
    intro i current value out h
    simp only [expandGrowthLoop, Option.some.injEq] at h
    subst h
    simp
  | cons g rest ih =>
    intro i current value out h
    simp only [expandGrowthLoop] at h
    by_cases hn : name = "annual_rental_cost"
    · rw [if_pos hn] at h
      cases hm : lookupN fp "n_years_rental_move" with
      | none => simp only [hm] at h; exact Option.noConfusion h
      | some move =>
        simp only [hm] at h
        by_cases hm0 : move = 0
        · rw [if_pos hm0] at h; exact Option.noConfusion h
        · rw [if_neg hm0] at h
          by_cases hmod : (value.length + 1) % move = 0
          · rw [if_pos hmod] at h
            cases ha : lookupSeq sp "annual_rental_market_price" with
            | none => simp only [ha] at h; exact Option.noConfusion h
            | some anchor =>
              simp only [ha] at h
              cases hg : anchor[i + 1]? with
              | none => simp only [hg] at h; exact Option.noConfusion h
              | some a =>
                simp only [hg] at h
                have hlen := ih (i + 1) a (value ++ [a]) out h
                simp only [List.length_append, List.length_cons,
                  List.length_nil] at hlen ⊢
                omega
          · rw [if_neg hmod] at h
            have hlen := ih (i + 1) (current * (1 + g))
              (value ++ [current * (1 + g)]) out h
            simp only [List.length_append, List.length_cons,
              List.length_nil] at hlen ⊢
            omega
    · rw [if_neg hn] at h
      have hlen := ih (i + 1) (current * (1 + g))
        (value ++ [current * (1 + g)]) out h
      simp only [List.length_append, List.length_cons,
        List.length_nil] at hlen ⊢
      omega

lemma expandGrowthLoop_spec (fp sp : List (String × Val)) (name : String)
    (m : ℕ) (anchor : List ℚ)
    (hm : lookupN fp "n_years_rental_move" = some m) (hm0 : m ≠ 0)
    (ha : lookupSeq sp "annual_rental_market_price" = some anchor) :
    ∀ (rates : List ℚ) (i : ℕ) (current : ℚ) (value out : List ℚ),
      expandGrowthLoop fp sp name rates i current value = some out →
      value.length = i + 1 → value[i]? = some current →
      (∀ j, j < i + 1 → out[j]? = value[j]?) ∧
      (∀ t, i ≤ t → t < i + rates.length →
        if name = "annual_rental_cost" ∧ (t + 2) % m = 0 then
          out[t + 1]? = anchor[t + 1]?
        else ∃ prev g, out[t]? = some prev ∧ rates[t - i]? = some g ∧
          out[t + 1]? = some (prev * (1 + g))) := by
  intro rates
  induction rates with
  | nil =>
    intro i current value out h hlen hlast
    simp only [expandGrowthLoop, Option.some.injEq] at h
    subst h
    exact ⟨fun j _ => rfl, fun t h1 h2 => by simp at h2; omega⟩
  | cons g rest ih =>
    intro i current value out h hlen hlast
    simp only [expandGrowthLoop] at h
    by_cases hn : name = "annual_rental_cost"
    · rw [if_pos hn, hm] at h
      simp only at h
      rw [if_neg hm0] at h
      by_cases hmod : (value.length + 1) % m = 0
      · rw [if_pos hmod] at h
        simp only [ha] at h
        cases hg : anchor[i + 1]? with
        | none => simp only [hg] at h; exact Option.noConfusion h
        | some a =>
          simp only [hg] at h
          have hlen2 : (value ++ [a]).length = (i + 1) + 1 := by
            simp [hlen]
          have hlast2 : (value ++ [a])[i + 1]? = some a := by
            rw [← hlen]
            exact List.getElem?_concat_length value a
          obtain ⟨hpre, hrec⟩ := ih (i + 1) a (value ++ [a]) out h hlen2 hlast2
          rw [hlen] at hmod
          constructor
          · intro j hj
            rw [hpre j (by omega)]
            exact List.getElem?_append_left (by omega)
          · intro t h1 h2
            rcases Nat.eq_or_lt_of_le h1 with heq | h1
            · subst heq
              have hcond : name = "annual_rental_cost" ∧ (i + 2) % m = 0 :=
                ⟨hn, hmod⟩
              rw [if_pos hcond]
              rw [hpre (i + 1) (by omega), hlast2, hg]
            · simp only [List.length_cons] at h2
              have hstep := hrec t h1 (by omega)
              have hidx : t - i = (t - (i + 1)) + 1 := by omega
              by_cases hcond : name = "annual_rental_cost" ∧ (t + 2) % m = 0
              · rw [if_pos hcond] at hstep ⊢
                exact hstep
              · rw [if_neg hcond] at hstep ⊢
                obtain ⟨prev, g2, e1, e2, e3⟩ := hstep
                exact ⟨prev, g2, e1, by rw [hidx]; simpa using e2, e3⟩
      · rw [if_neg hmod] at h
        have hlen2 : (value ++ [current * (1 + g)]).length = (i + 1) + 1 := by
          simp [hlen]
        have hlast2 : (value ++ [current * (1 + g)])[i + 1]? =
            some (current * (1 + g)) := by
          rw [← hlen]
          exact List.getElem?_concat_length value _
        obtain ⟨hpre, hrec⟩ := ih (i + 1) (current * (1 + g))
          (value ++ [current * (1 + g)]) out h hlen2 hlast2
        rw [hlen] at hmod
        constructor
        · intro j hj
          rw [hpre j (by omega)]
          exact List.getElem?_append_left (by omega)
        · intro t h1 h2
          rcases Nat.eq_or_lt_of_le h1 with heq | h1
          · subst heq
            have hcond : ¬(name = "annual_rental_cost" ∧ (i + 2) % m = 0) := by
              rintro ⟨-, hc⟩
              exact hmod hc
            rw [if_neg hcond]
            refine ⟨current, g, ?_, ?_, ?_⟩
            · rw [hpre i (by omega), List.getElem?_append_left (by omega), hlast]
            · simp
            · rw [hpre (i + 1) (by omega), hlast2]
          · simp only [List.length_cons] at h2
            have hstep := hrec t h1 (by omega)
            have hidx : t - i = (t - (i + 1)) + 1 := by omega
            by_cases hcond : name = "annual_rental_cost" ∧ (t + 2) % m = 0
            · rw [if_pos hcond] at hstep ⊢
              exact hstep
            · rw [if_neg hcond] at hstep ⊢
              obtain ⟨prev, g2, e1, e2, e3⟩ := hstep
              exact ⟨prev, g2, e1, by rw [hidx]; simpa using e2, e3⟩
    · rw [if_neg hn] at h
      have hlen2 : (value ++ [current * (1 + g)]).length = (i + 1) + 1 := by
        simp [hlen]
      have hlast2 : (value ++ [current * (1 + g)])[i + 1]? =
          some (current * (1 + g)) := by
        rw [← hlen]
        exact List.getElem?_concat_length value _
      obtain ⟨hpre, hrec⟩ := ih (i + 1) (current * (1 + g))
        (value ++ [current * (1 + g)]) out h hlen2 hlast2
      constructor
      · intro j hj
        rw [hpre j (by omega)]
        exact List.getElem?_append_left (by omega)
      · intro t h1 h2
        rcases Nat.eq_or_lt_of_le h1 with heq | h1
        · subst heq
          have hcond : ¬(name = "annual_rental_cost" ∧ (i + 2) % m = 0) := by
            rintro ⟨hc, -⟩
            exact hn hc
          rw [if_neg hcond]
          refine ⟨current, g, ?_, ?_, ?_⟩
          · rw [hpre i (by omega), List.getElem?_append_left (by omega), hlast]
          · simp
          · rw [hpre (i + 1) (by omega), hlast2]
        · simp only [List.length_cons] at h2
          have hstep := hrec t h1 (by omega)
          have hidx : t - i = (t - (i + 1)) + 1 := by omega
          by_cases hcond : name = "annual_rental_cost" ∧ (t + 2) % m = 0
          · rw [if_pos hcond] at hstep ⊢
            exact hstep
          · rw [if_neg hcond] at hstep ⊢
            obtain ⟨prev, g2, e1, e2, e3⟩ := hstep
            exact ⟨prev, g2, e1, by rw [hidx]; simpa using e2, e3⟩

/-- C6 (confirmed): for every growth-linked variable expanded by the
Parameter Sampler's second pass, the produced yearly series satisfies
`value[t+1] = value[t] * (1 + growth_rate[t])`, except that the
`annual_rental_cost` series is instead reset to the same-indexed entry of
the `annual_rental_market_price` anchor exactly when the count of
generated years including the one being generated — `t + 2`, since the
seed is year 0 — is an exact multiple of the configured
`n_years_rental_move` interval. -/
theorem growth_chain_recurrence (fp sp : List (String × Val)) (name : String)
    (m : ℕ) (anchor : List ℚ) (seed : ℚ) (rates out : List ℚ)
    (hm : lookupN fp "n_years_rental_move" = some m) (hm0 : m ≠ 0)
    (ha : lookupSeq sp "annual_rental_market_price" = some anchor)
    (h : expandGrowth fp sp name seed rates = some out) :
    out.length = rates.length + 1 ∧ out[0]? = some seed ∧
    ∀ t, t < rates.length →
      if name = "annual_rental_cost" ∧ (t + 2) % m = 0 then
        out[t + 1]? = anchor[t + 1]?
      else ∃ prev g, out[t]? = some prev ∧ rates[t]? = some g ∧
        out[t + 1]? = some (prev * (1 + g)) := by
  have hlen := expandGrowthLoop_length fp sp name rates 0 seed [seed] out h
  obtain ⟨hpre, hrec⟩ := expandGrowthLoop_spec fp sp name m anchor hm hm0 ha
    rates 0 seed [seed] out h (by simp) (by simp)
  refine ⟨by simpa [Nat.add_comm] using hlen, ?_, ?_⟩
  · rw [hpre 0 (by omega)]
    simp
  · intro t ht
    have hstep := hrec t (by omega) (by omega)
    simpa using hstep

/-- Fixed parameters for the `growth_chain_recurrence` witness: a rental
move every 2 years. -/
def fpC6 : List (String × Val) := [ ("n_years_rental_move", Val.num 2) ]

/-- Simulation parameters for the `growth_chain_recurrence` witness: a
3-entry rental-market-price anchor. -/
def spC6 : List (String × Val) :=
  [ ("annual_rental_market_price", Val.seq [5, 7, 11]) ]

/-- The expanded rental-cost series of the witness. -/
def outC6 : List ℚ :=
  (expandGrowth fpC6 spC6 "annual_rental_cost" 1 [1, 1]).getD []

/-- Witness for `growth_chain_recurrence`: a concrete 2-rate expansion of
`annual_rental_cost` with a move interval of 2 years, whose first step is
an anchor reset and whose second step compounds. -/
theorem growth_chain_recurrence_witness :
    lookupN fpC6 "n_years_rental_move" = some 2 ∧ (2 : ℕ) ≠ 0 ∧
    lookupSeq spC6 "annual_rental_market_price" = some [5, 7, 11] ∧
    expandGrowth fpC6 spC6 "annual_rental_cost" 1 [1, 1] = some outC6 ∧
    (outC6.length = 2 + 1 ∧ outC6[0]? = some 1 ∧
      ∀ t, t < 2 →
        if ("annual_rental_cost" = "annual_rental_cost" ∧ (t + 2) % 2 = 0) then
          outC6[t + 1]? = [(5 : ℚ), 7, 11][t + 1]?
        else ∃ prev g, outC6[t]? = some prev ∧
          [(1 : ℚ), 1][t]? = some g ∧
          outC6[t + 1]? = some (prev * (1 + g))) :=
  ⟨by decide, by decide, rfl, rfl,
    by
      have := growth_chain_recurrence fpC6 spC6 "annual_rental_cost" 2
        [5, 7, 11] 1 [1, 1] outC6 (by decide) (by decide) rfl rfl
      simpa using this⟩

/-- C2 (confirmed): the engine requires the fixed-parameter keys
`taxes_and_nonhousing_cost_of_living_to_income_ratio`, `initial_net_worth`,
`debug_mode` and `married_at_simulation_end`, none of which config.py's
`fixed_parameters` record defines; consequently, for every draw stream,
`run_simulation` on the shipped record fails with a missing-key lookup
(`none`, Python `KeyError`) instead of completing — callers must supply
the four keys externally. -/
theorem missing_fixed_parameter_keys :
    List.lookup "taxes_and_nonhousing_cost_of_living_to_income_ratio"
      shippedFixedParams = none ∧
    List.lookup "initial_net_worth" shippedFixedParams = none ∧
    List.lookup "debug_mode" shippedFixedParams = none ∧
    List.lookup "married_at_simulation_end" shippedFixedParams = none ∧
    ∀ draws, run_simulation shippedFixedParams draws = none := by
  refine ⟨by decide, by decide, by decide, by decide, ?_⟩
  intro draws
  cases hg : generate_params shippedFixedParams draws with
  | none => simp only [run_simulation, hg]
  | some sp =>
    simp only [run_simulation, hg]
    rw [show List.lookup "debug_mode" shippedFixedParams = (none : Option Val)
      from by decide]

/-- C3 (code_bug): the Mortgage Model has NO zero-rate special case: at
`rate = 0` both closed forms divide by zero (Python raises
`ZeroDivisionError`), while the spec's mandated zero-rate closed forms are
perfectly well defined at the same inputs (price 750000, 15-year term, 20%
down; balance at 120 of 180 payments). -/
theorem zero_rate_mortgage_division_by_zero :
    calculate_monthly_mortgage_principal_and_interest 750000 0 15 (2/10)
      = none ∧
    calculate_remaining_mortgage_balance 600000 0 180 120 = none ∧
    monthly_payment_zero_rate_spec 750000 15 (2/10) = 10000 / 3 ∧
    remaining_balance_zero_rate_spec 600000 180 120 = 200000 := by
  refine ⟨?_, ?_, ?_, ?_⟩
  · simp only [calculate_monthly_mortgage_principal_and_interest, qdiv,
      MONTHS_PER_YEAR]
    norm_num
  · simp only [calculate_remaining_mortgage_balance, qdiv]
    norm_num
  · simp only [monthly_payment_zero_rate_spec]
    norm_num
  · simp only [remaining_balance_zero_rate_spec]
    norm_num

lemma deflateLoop_eq : ∀ (l : List ℚ) (a : ℚ),
    (∀ x ∈ l, (1 : ℚ) + x ≠ 0) →
    deflateLoop l a = some (a / (l.map (fun x => 1 + x)).prod) := by
  intro l
  induction l with
  | nil => intro a h; simp [deflateLoop]
  | cons x t ih =>
    intro a h
    have hx : (1 : ℚ) + x ≠ 0 := h x (by simp)
    simp only [deflateLoop, qdiv, if_neg hx]
    rw [ih (a / (1 + x)) (fun y hy => h y (by simp [hy]))]
    rw [List.map_cons, List.prod_cons, div_div]

lemma foldl_mul_prod : ∀ (l : List ℚ) (pv : ℚ),
    l.foldl (fun acc x => acc * (1 + x)) pv =
      pv * (l.map (fun x => 1 + x)).prod := by
  intro l
  induction l with
  | nil => intro pv; simp
  | cons x t ih =>
    intro pv
    simp only [List.foldl_cons, ih, List.map_cons, List.prod_cons]
    ring

/-- C9 (confirmed): the Present-Value Deflator divides the nominal amount
by `(1 + inflation[year])` in reverse chronological order, and — over
exact arithmetic — multiplying the deflated result forward through the
same inflation sequence reproduces the original nominal amount, for every
amount and every inflation sequence with all entries different from -1. -/
theorem dollars_today_roundtrip (sp : List (String × Val)) (amount : ℚ)
    (annual_inflation : List ℚ)
    (hinf : lookupSeq sp "annual_inflation" = some annual_inflation)
    (h1 : ∀ x ∈ annual_inflation, x ≠ -1) :
    ∃ pv, dollars_today sp amount = some pv ∧
      annual_inflation.foldl (fun acc x => acc * (1 + x)) pv = amount := by
  have h2 : ∀ x ∈ annual_inflation.reverse, (1 : ℚ) + x ≠ 0 := by
    intro x hx hc
    exact h1 x (List.mem_reverse.mp hx) (by linarith)
  have hd := deflateLoop_eq annual_inflation.reverse amount h2
  refine ⟨_, by simp only [dollars_today, hinf]; exact hd, ?_⟩
  rw [foldl_mul_prod]
  have hpr : ((annual_inflation.reverse.map (fun x => 1 + x)).prod) =
      ((annual_inflation.map (fun x => 1 + x)).prod) := by
    rw [List.map_reverse, List.prod_reverse]
  have hprod_ne : ((annual_inflation.map (fun x => 1 + x)).prod) ≠ 0 := by
    apply List.prod_ne_zero
    intro hc
    rcases List.mem_map.mp hc with ⟨x, hx, he⟩
    exact h2 x (List.mem_reverse.mpr hx) he
  rw [hpr]
  exact div_mul_cancel₀ amount hprod_ne

/-- Simulation parameters for the deflator witness. -/
def spC9 : List (String × Val) := [ ("annual_inflation", Val.seq [1]) ]

/-- Witness for `dollars_today_roundtrip`: a one-year 100% inflation
sequence; 6 nominal dollars deflate to a present value that re-inflates
to 6. -/
theorem dollars_today_roundtrip_witness :
    lookupSeq spC9 "annual_inflation" = some [1] ∧
    (∀ x ∈ [(1 : ℚ)], x ≠ -1) ∧
    ∃ pv, dollars_today spC9 6 = some pv ∧
      [(1 : ℚ)].foldl (fun acc x => acc * (1 + x)) pv = 6 :=
  ⟨rfl, by decide, dollars_today_roundtrip spC9 6 [1] rfl (by decide)⟩

lemma winFlags_eq : ∀ (hs : List ℚ) (k : ℕ) (rs : List ℚ),
    rs.length = k + hs.length →
    winFlags rs (List.enumFrom k hs) =
      some ((hs.zip (rs.drop k)).map
        (fun p => if p.1 > p.2 then (1 : ℚ) else 0)) := by
  intro hs
  induction hs with
  | nil =>
    intro k rs h
    have : rs.drop k = [] := List.drop_eq_nil_of_le (by simp at h; omega)
    simp [winFlags, List.enumFrom, this]
  | cons a t ih =>
    intro k rs h
    simp only [List.length_cons] at h
    have hk : k < rs.length := by omega
    cases hr : rs[k]? with
    | none =>
      exfalso
      rw [List.getElem?_eq_none_iff] at hr
      omega
    | some r =>
      have hrk : rs[k] = r := by
        have h3 := List.getElem?_eq_getElem hk
        exact Option.some.inj (h3.symm.trans hr)
      have hdrop : rs.drop k = r :: rs.drop (k + 1) := by
        rw [List.drop_eq_getElem_cons hk, hrk]
      simp only [List.enumFrom, winFlags, hr]
      rw [ih (k + 1) rs (by omega)]
      rw [hdrop]
      simp [List.zip_cons_cons]

lemma sum_indicator_eq_countP : ∀ (l : List (ℚ × ℚ)),
    (l.map (fun p => if p.1 > p.2 then (1 : ℚ) else 0)).sum =
      (l.countP (fun p => decide (p.2 < p.1)) : ℚ) := by
  intro l
  induction l with
  | nil => simp
  | cons a t ih =>
    simp only [List.map_cons, List.sum_cons, ih, List.countP_cons]
    by_cases hc : a.2 < a.1
    · rw [if_pos (by exact hc), if_pos (by simpa using hc)]
      push_cast
      ring
    · rw [if_neg (by exact hc), if_neg (by simpa using hc)]
      push_cast
      ring

/-- C10 (confirmed): for every run of `n` trials the computed win-rate is a
well-defined value in `[0, 1]` equal to the number of trials whose
homeowner net worth strictly exceeds the same trial's renter net worth,
divided by `n` — a paired per-trial comparison. -/
theorem win_rate_paired (homeowner_net_worths renter_net_worths : List ℚ)
    (n : ℕ) (hh : homeowner_net_worths.length = n)
    (hr : renter_net_worths.length = n) (hn : 0 < n) :
    ∃ rate, homeowner_beats_renter_rate homeowner_net_worths
        renter_net_worths n = some rate ∧
      0 ≤ rate ∧ rate ≤ 1 ∧
      rate = (countWins homeowner_net_worths renter_net_worths : ℚ) / n := by
  have hflags := winFlags_eq homeowner_net_worths 0 renter_net_worths
    (by omega)
  simp only [List.drop_zero] at hflags
  have hcount : ((homeowner_net_worths.zip renter_net_worths).map
      (fun p => if p.1 > p.2 then (1 : ℚ) else 0)).sum =
      (countWins homeowner_net_worths renter_net_worths : ℚ) :=
    sum_indicator_eq_countP _
  have hne : (n : ℚ) ≠ 0 := Nat.cast_ne_zero.mpr (by omega)
  have hzlen : (homeowner_net_worths.zip renter_net_worths).length = n := by
    simp [List.length_zip, hh, hr]
  refine ⟨(countWins homeowner_net_worths renter_net_worths : ℚ) / n,
    ?_, ?_, ?_, rfl⟩
  · simp only [homeowner_beats_renter_rate, List.enum]
    rw [hflags]
    simp only [qdiv, if_neg hne, hcount]
  · positivity
  · rw [div_le_one (by positivity)]
    have hle : countWins homeowner_net_worths renter_net_worths ≤ n := by
      have := List.countP_le_length
        (fun p => decide (p.2 < p.1))
        (l := homeowner_net_worths.zip renter_net_worths)
      unfold countWins
      omega
    exact_mod_cast hle

/-- Witness for `win_rate_paired`: one trial, homeowner 2 versus renter 1,
giving a win-rate of exactly 1. -/
theorem win_rate_paired_witness :
    [(2 : ℚ)].length = 1 ∧ [(1 : ℚ)].length = 1 ∧ 0 < 1 ∧
    ∃ rate, homeowner_beats_renter_rate [(2 : ℚ)] [(1 : ℚ)] 1 = some rate ∧
      0 ≤ rate ∧ rate ≤ 1 ∧ rate = (countWins [(2 : ℚ)] [(1 : ℚ)] : ℚ) / 1 :=
  ⟨rfl, rfl, Nat.one_pos, win_rate_paired [2] [1] 1 rfl rfl Nat.one_pos⟩

/-- C1 (corrected): the renter projection's invested surplus is computed
against the RENTER's own yearly total cost, not the homeowner's: the
`annual_total_homeowner_costs` argument has no effect on the result (first
conjunct), and the pooled equity balance returned is exactly
`calculate_stock_assets` applied to the renter's own cost list (second
conjunct) — the same function, hence the same market-return sequence and
the same negative-surplus handling as the homeowner path. -/
theorem renter_surplus_own_costs (fp sp : List (String × Val))
    (hc : List ℚ) (inc : ℚ) :
    (∀ hc2, run_renter_simulation fp sp hc inc =
      run_renter_simulation fp sp hc2 inc) ∧
    (∀ stock ws costs, run_renter_simulation fp sp hc inc =
        some ((stock, ws), costs) →
      calculate_stock_assets inc costs fp sp = some (stock, ws)) := by
  constructor
  · intro hc2
    rfl
  · intro stock ws costs h
    unfold run_renter_simulation at h
    cases h1 : lookupSeq sp "annual_rental_cost" with
    | none => simp only [h1] at h; exact Option.noConfusion h
    | some rc =>
      simp only [h1] at h
      cases h2 : lookupSeq sp "amortized_annual_moving_cost" with
      | none => simp only [h2] at h; exact Option.noConfusion h
      | some mc =>
        simp only [h2] at h
        cases h3 : lookupSeq sp "amortized_annual_moving_saving" with
        | none => simp only [h3] at h; exact Option.noConfusion h
        | some ms =>
          simp only [h3] at h
          cases h4 : lookupN fp "n_years" with
          | none => simp only [h4] at h; exact Option.noConfusion h
          | some n =>
            simp only [h4] at h
            cases h5 : buildRenterCosts rc mc ms (List.range n) with
            | none => simp only [h5] at h; exact Option.noConfusion h
            | some rcosts =>
              simp only [h5] at h
              cases h6 : calculate_stock_assets inc rcosts fp sp with
              | none => simp only [h6] at h; exact Option.noConfusion h
              | some sa =>
                simp only [h6, Option.some.injEq] at h
                obtain ⟨hsa, hcosts⟩ := Prod.mk.injEq .. ▸ h
                subst hcosts
                rw [h6, hsa]

/-- Fixed parameters for the concrete renter evaluations: a one-year
horizon, no tax ratio, no initial net worth. -/
def fpR : List (String × Val) :=
  [ ("n_years", Val.num 1),
    ("taxes_and_nonhousing_cost_of_living_to_income_ratio", Val.num 0),
    ("initial_net_worth", Val.num 0) ]

/-- Simulation parameters for the concrete renter evaluations: rent 10,
no moving cost or saving, flat market. -/
def spR : List (String × Val) :=
  [ ("annual_stock_market_return", Val.seq [0]),
    ("annual_rental_cost", Val.seq [10]),
    ("amortized_annual_moving_cost", Val.seq [0]),
    ("amortized_annual_moving_saving", Val.seq [0]) ]

lemma run_renter_evalR :
    run_renter_simulation fpR spR [5] 20 = some ((10, []), [10]) := by
  have e1 : lookupSeq spR "annual_rental_cost" = some [10] := by decide
  have e2 : lookupSeq spR "amortized_annual_moving_cost" = some [0] := by decide
  have e3 : lookupSeq spR "amortized_annual_moving_saving" = some [0] := by
    decide
  have e4 : lookupN fpR "n_years" = some 1 := by decide
  have e5 : lookupQ fpR "taxes_and_nonhousing_cost_of_living_to_income_ratio"
      = some 0 := by decide
  have e6 : lookupQ fpR "initial_net_worth" = some 0 := by decide
  have e7 : lookupSeq spR "annual_stock_market_return" = some [0] := by decide
  simp only [run_renter_simulation, e1, e2, e3, e4, calculate_stock_assets,
    e5, e6, e7, buildRenterCosts, stockLoop, stockYearUpdate,
    List.range_succ, List.range_zero]
  norm_num

lemma run_renter_spec_evalR :
    run_renter_simulation_spec fpR spR [5] 20 = some ((15, []), [10]) := by
  have e1 : lookupSeq spR "annual_rental_cost" = some [10] := by decide
  have e2 : lookupSeq spR "amortized_annual_moving_cost" = some [0] := by decide
  have e3 : lookupSeq spR "amortized_annual_moving_saving" = some [0] := by
    decide
  have e4 : lookupN fpR "n_years" = some 1 := by decide
  have e5 : lookupQ fpR "taxes_and_nonhousing_cost_of_living_to_income_ratio"
      = some 0 := by decide
  have e6 : lookupQ fpR "initial_net_worth" = some 0 := by decide
  have e7 : lookupSeq spR "annual_stock_market_return" = some [0] := by decide
  simp only [run_renter_simulation_spec, e1, e2, e3, e4,
    calculate_stock_assets, e5, e6, e7, buildRenterCosts, stockLoop,
    stockYearUpdate, List.range_succ, List.range_zero]
  norm_num

/-- Counterexample to C1 as stated: with shared income 20, homeowner cost
5 and renter cost 10, the source's renter projection invests the surplus
over the renter's own cost (pooled balance 10), while the spec's
homeowner-cost-relative rule would invest 15 — the two disagree, so the
renter surplus is NOT computed relative to the homeowner's cost. -/
theorem renter_surplus_homeowner_relative_counterexample :
    run_renter_simulation fpR spR [5] 20 = some ((10, []), [10]) ∧
    run_renter_simulation_spec fpR spR [5] 20 = some ((15, []), [10]) ∧
    ((((10 : ℚ), ([] : List ℚ)), [(10 : ℚ)]) :
      (ℚ × List ℚ) × List ℚ) ≠ (((15 : ℚ), ([] : List ℚ)), [(10 : ℚ)]) :=
  ⟨run_renter_evalR, run_renter_spec_evalR, by decide⟩

/-- Witness for `renter_surplus_own_costs` at the concrete renter
scenario. -/
theorem renter_surplus_own_costs_witness :
    run_renter_simulation fpR spR [5] 20 = some ((10, []), [10]) ∧
    calculate_stock_assets 20 [10] fpR spR = some (10, []) :=
  ⟨run_renter_evalR,
    (renter_surplus_own_costs fpR spR [5] 20).2 10 [] [10] run_renter_evalR⟩

lemma stockLoop_eq_spec (inc ratio init : ℚ) (costs returns : List ℚ) :
    ∀ (len i0 : ℕ) (v : ℚ) (ws : List ℚ),
      costs.length = i0 + len → returns.length = i0 + len →
      ∃ ws2, stockLoop inc ratio init costs returns (List.range' i0 len) v ws
        = some (stockSpecGo (inc * (1 - ratio)) init i0 v
            ((costs.drop i0).zip (returns.drop i0)), ws2) := by
  intro len
  induction len with
  | zero =>
    intro i0 v ws h1 h2
    have hd : costs.drop i0 = [] := List.drop_eq_nil_of_le (by omega)
    rw [hd]
    exact ⟨ws, by simp [stockLoop, stockSpecGo, List.range']⟩
  | succ n ih =>
    intro i0 v ws h1 h2
    have hic : i0 < costs.length := by omega
    have hir : i0 < returns.length := by omega
    cases hc : costs[i0]? with
    | none => exfalso; rw [List.getElem?_eq_none_iff] at hc; omega
    | some c =>
      cases hr : returns[i0]? with
      | none => exfalso; rw [List.getElem?_eq_none_iff] at hr; omega
      | some r =>
        have hdc : costs.drop i0 = c :: costs.drop (i0 + 1) := by
          rw [List.drop_eq_getElem_cons hic]
          have h3 := List.getElem?_eq_getElem hic
          rw [Option.some.inj (h3.symm.trans hc)]
        have hdr : returns.drop i0 = r :: returns.drop (i0 + 1) := by
          rw [List.drop_eq_getElem_cons hir]
          have h3 := List.getElem?_eq_getElem hir
          rw [Option.some.inj (h3.symm.trans hr)]
        obtain ⟨ws2, hws2⟩ := ih (i0 + 1)
          ((stockYearUpdate inc ratio init i0 c v ws).1 * (1 + r))
          ((stockYearUpdate inc ratio init i0 c v ws).2)
          (by omega) (by omega)
        refine ⟨ws2, ?_⟩
        rw [show List.range' i0 (n + 1) = i0 :: List.range' (i0 + 1) n
          from rfl]
        simp only [stockLoop, hc, hr]
        rw [hws2, hdc, hdr]
        simp only [List.zip_cons_cons]
        have hupd : (stockYearUpdate inc ratio init i0 c v ws).1 =
            (if (inc * (1 - ratio) - c + (if i0 = 0 then init else 0)) > 0
              then v + (inc * (1 - ratio) - c + (if i0 = 0 then init else 0))
              else v) := by
          have hs : (if i0 = 0 then inc * (1 - ratio) - c + init
              else inc * (1 - ratio) - c) =
              inc * (1 - ratio) - c + (if i0 = 0 then init else 0) := by
            by_cases h0 : i0 = 0 <;> simp [h0]
          simp only [stockYearUpdate]
          rw [hs]
          by_cases hsgn :
              (inc * (1 - ratio) - c + (if i0 = 0 then init else 0)) > 0
          · rw [if_pos hsgn, if_pos hsgn]
          · rw [if_neg hsgn, if_neg hsgn]
        rw [show stockSpecGo (inc * (1 - ratio)) init i0 v
            (((c, r) :: (costs.drop (i0 + 1)).zip (returns.drop (i0 + 1)))) =
            stockSpecGo (inc * (1 - ratio)) init (i0 + 1)
              ((if (inc * (1 - ratio) - c + (if i0 = 0 then init else 0)) > 0
                then v + (inc * (1 - ratio) - c +
                  (if i0 = 0 then init else 0))
                else v) * (1 + r))
              ((costs.drop (i0 + 1)).zip (returns.drop (i0 + 1)))
          from rfl]
        rw [hupd]

lemma calculate_stock_assets_eq_spec (inc : ℚ) (costs : List ℚ)
    (fp sp : List (String × Val)) (n : ℕ) (ratio init : ℚ)
    (returns : List ℚ)
    (hn : lookupN fp "n_years" = some n)
    (hratio : lookupQ fp
      "taxes_and_nonhousing_cost_of_living_to_income_ratio" = some ratio)
    (hinit : lookupQ fp "initial_net_worth" = some init)
    (hret : lookupSeq sp "annual_stock_market_return" = some returns)
    (hlc : costs.length = n) (hlr : returns.length = n) :
    ∃ ws, calculate_stock_assets inc costs fp sp =
      some (stockSpecGo (inc * (1 - ratio)) init 0 0 (costs.zip returns),
        ws) := by
  obtain ⟨ws2, hws2⟩ := stockLoop_eq_spec inc ratio init costs returns n 0 0
    [] (by omega) (by omega)
  refine ⟨ws2, ?_⟩
  simp only [calculate_stock_assets, hn, hratio, hinit, hret,
    List.range_eq_range' n]
  simpa using hws2

/-- C4 (corrected): the yearly cash surplus fed into the pooled equity
balance is `annual_income * (1 - taxes_and_nonhousing_cost_of_living_to
_income_ratio) - cost` — the income is first scaled down by the tax/cost
ratio, not used bare — with the initial net worth added to year 0's
surplus only, and the balance then compounds by that year's sampled
market return. -/
theorem stock_surplus_uses_income_ratio (inc : ℚ) (costs : List ℚ)
    (fp sp : List (String × Val)) (n : ℕ) (ratio init : ℚ)
    (returns : List ℚ)
    (hn : lookupN fp "n_years" = some n)
    (hratio : lookupQ fp
      "taxes_and_nonhousing_cost_of_living_to_income_ratio" = some ratio)
    (hinit : lookupQ fp "initial_net_worth" = some init)
    (hret : lookupSeq sp "annual_stock_market_return" = some returns)
    (hlc : costs.length = n) (hlr : returns.length = n) :
    ∃ ws, calculate_stock_assets inc costs fp sp =
      some (stockSpecGo (inc * (1 - ratio)) init 0 0 (costs.zip returns),
        ws) :=
  calculate_stock_assets_eq_spec inc costs fp sp n ratio init returns hn
    hratio hinit hret hlc hlr

/-- Fixed parameters for the surplus counterexample: the tax/cost ratio is
one half. -/
def fpC4 : List (String × Val) :=
  [ ("n_years", Val.num 1),
    ("taxes_and_nonhousing_cost_of_living_to_income_ratio",
      Val.num (1/2)),
    ("initial_net_worth", Val.num 0) ]

/-- Simulation parameters for the surplus counterexample: one flat market
year. -/
def spC4 : List (String × Val) :=
  [ ("annual_stock_market_return", Val.seq [0]) ]

/-- Counterexample to C4 as stated: with income 100, zero cost and a
tax/cost ratio of one half, the source invests 50 (income is scaled by
`1 - ratio` first), whereas a surplus of plain "income minus cost" — the
claim's rule, `stockSpecGo` fed the bare income — would invest 100. -/
theorem stock_surplus_counterexample :
    calculate_stock_assets 100 [0] fpC4 spC4 = some (50, []) ∧
    stockSpecGo 100 0 0 0 ([(0 : ℚ)].zip [(0 : ℚ)]) = 100 ∧
    (50 : ℚ) ≠ 100 := by
  refine ⟨?_, ?_, by norm_num⟩
  · have e1 : lookupN fpC4 "n_years" = some 1 := by rfl
    have e2 : lookupQ fpC4
        "taxes_and_nonhousing_cost_of_living_to_income_ratio" =
        some (1/2) := by rfl
    have e3 : lookupQ fpC4 "initial_net_worth" = some 0 := by rfl
    have e4 : lookupSeq spC4 "annual_stock_market_return" = some [0] := by rfl
    simp only [calculate_stock_assets, e1, e2, e3, e4, stockLoop,
      stockYearUpdate, List.range_succ, List.range_zero]
    norm_num
  · simp only [List.zip_cons_cons, List.zip_nil_right, stockSpecGo]
    norm_num

/-- Witness for `stock_surplus_uses_income_ratio`: a one-year run with
income 10, cost 3, ratio 0 and initial net worth 5 produces the spec-fold
value. -/
theorem stock_surplus_uses_income_ratio_witness :
    lookupN fpR "n_years" = some 1 ∧
    lookupQ fpR "taxes_and_nonhousing_cost_of_living_to_income_ratio" =
      some 0 ∧
    lookupQ fpR "initial_net_worth" = some 0 ∧
    lookupSeq spR "annual_stock_market_return" = some [0] ∧
    ∃ ws, calculate_stock_assets 20 [10] fpR spR =
      some (stockSpecGo (20 * (1 - 0)) 0 0 0 ([(10 : ℚ)].zip [(0 : ℚ)]),
        ws) :=
  ⟨rfl, rfl, rfl, rfl,
    stock_surplus_uses_income_ratio 20 [10] fpR spR 1 0 0 [0] rfl rfl rfl
      rfl rfl rfl⟩

/-- C5 (confirmed): a year with negative cash surplus is non-fatal: the
year contributes exactly zero to the equity balance and the printed
warning amount `abs(surplus_cash)` is recorded (first conjunct); the loop
then still compounds the unchanged balance by that year's market return
and continues (second conjunct); and for well-formed inputs the whole
stock computation always produces a result, never aborting (third
conjunct). -/
theorem negative_surplus_nonfatal :
    (∀ (inc ratio init : ℚ) (i : ℕ) (cost v : ℚ) (ws : List ℚ),
      (if i = 0 then inc * (1 - ratio) - cost + init
        else inc * (1 - ratio) - cost) < 0 →
      stockYearUpdate inc ratio init i cost v ws =
        (v, ws ++ [|if i = 0 then inc * (1 - ratio) - cost + init
          else inc * (1 - ratio) - cost|])) ∧
    (∀ (inc ratio init : ℚ) (costs returns : List ℚ) (i : ℕ)
      (rest : List ℕ) (v : ℚ) (ws : List ℚ) (cost r : ℚ),
      costs[i]? = some cost → returns[i]? = some r →
      (if i = 0 then inc * (1 - ratio) - cost + init
        else inc * (1 - ratio) - cost) < 0 →
      stockLoop inc ratio init costs returns (i :: rest) v ws =
        stockLoop inc ratio init costs returns rest (v * (1 + r))
          (ws ++ [|if i = 0 then inc * (1 - ratio) - cost + init
            else inc * (1 - ratio) - cost|])) ∧
    (∀ (inc : ℚ) (costs : List ℚ) (fp sp : List (String × Val)) (n : ℕ)
      (ratio init : ℚ) (returns : List ℚ),
      lookupN fp "n_years" = some n →
      lookupQ fp "taxes_and_nonhousing_cost_of_living_to_income_ratio" =
        some ratio →
      lookupQ fp "initial_net_worth" = some init →
      lookupSeq sp "annual_stock_market_return" = some returns →
      costs.length = n → returns.length = n →
      ∃ val ws, calculate_stock_assets inc costs fp sp = some (val, ws)) := by
  have hupd : ∀ (inc ratio init : ℚ) (i : ℕ) (cost v : ℚ) (ws : List ℚ),
      (if i = 0 then inc * (1 - ratio) - cost + init
        else inc * (1 - ratio) - cost) < 0 →
      stockYearUpdate inc ratio init i cost v ws =
        (v, ws ++ [|if i = 0 then inc * (1 - ratio) - cost + init
          else inc * (1 - ratio) - cost|]) := by
    intro inc ratio init i cost v ws hneg
    simp only [stockYearUpdate]
    rw [if_neg (not_lt.mpr (le_of_lt hneg))]
  refine ⟨hupd, ?_, ?_⟩
  · intro inc ratio init costs returns i rest v ws cost r hc hr hneg
    simp only [stockLoop, hc, hr]
    rw [hupd inc ratio init i cost v ws hneg]
  · intro inc costs fp sp n ratio init returns hn hratio hinit hret hlc hlr
    obtain ⟨ws, hws⟩ := calculate_stock_assets_eq_spec inc costs fp sp n
      ratio init returns hn hratio hinit hret hlc hlr
    exact ⟨_, ws, hws⟩

/-- Witness for `negative_surplus_nonfatal`: a year with income 0 and cost
1 (surplus -1) contributes nothing, records the warning, still compounds,
and the full computation on the concrete renter scenario returns a
value. -/
theorem negative_surplus_nonfatal_witness :
    stockYearUpdate 0 0 0 0 1 3 [] =
      (3, [] ++ [|if (0 : ℕ) = 0 then (0 : ℚ) * (1 - 0) - 1 + 0
        else (0 : ℚ) * (1 - 0) - 1|]) ∧
    stockLoop 0 0 0 [1] [0] [0] 3 [] =
      stockLoop 0 0 0 [1] [0] [] (3 * (1 + 0))
        ([] ++ [|if (0 : ℕ) = 0 then (0 : ℚ) * (1 - 0) - 1 + 0
          else (0 : ℚ) * (1 - 0) - 1|]) ∧
    ∃ val ws, calculate_stock_assets 20 [10] fpR spR = some (val, ws) :=
  ⟨negative_surplus_nonfatal.1 0 0 0 0 1 3 [] (by norm_num),
    negative_surplus_nonfatal.2.1 0 0 0 [1] [0] 0 [] 3 [] 1 0 rfl rfl
      (by norm_num),
    negative_surplus_nonfatal.2.2 20 [10] fpR spR 1 0 0 [0] rfl rfl rfl rfl
      rfl rfl⟩

/-- C8 (corrected): the Parameter Sampler bypasses sampling for a variable
exactly when the user-supplied override value is TRUTHY: a truthy override
is stored verbatim with no draw consumed (first conjunct), but an override
of `0` is falsy and is ignored — the entry is processed identically to
one with no override at all, sampling proceeding as usual (second
conjunct, where `fp2` is `fp` without the override and with identical
scenario-flag and `n_years` entries). -/
theorem override_bypass_iff_truthy :
    (∀ (fp : List (String × Val)) (draws : ℕ → ℚ) (name : String)
      (mean std_dev : ℚ) (k : ℕ) (v : Val),
      List.lookup name fp = some v → v.truthy = true →
      processEntry fp draws name mean std_dev k = some (v, k)) ∧
    (∀ (fp fp2 : List (String × Val)) (draws : ℕ → ℚ) (name : String)
      (mean std_dev : ℚ) (k : ℕ),
      List.lookup name fp = some (Val.num 0) →
      List.lookup name fp2 = none →
      List.lookup "assume_great_loan_found" fp2 =
        List.lookup "assume_great_loan_found" fp →
      List.lookup "assume_good_loan_found" fp2 =
        List.lookup "assume_good_loan_found" fp →
      List.lookup "assume_great_housing_growth" fp2 =
        List.lookup "assume_great_housing_growth" fp →
      List.lookup "assume_good_housing_growth" fp2 =
        List.lookup "assume_good_housing_growth" fp →
      List.lookup "n_years" fp2 = List.lookup "n_years" fp →
      processEntry fp draws name mean std_dev k =
        processEntry fp2 draws name mean std_dev k) := by
  constructor
  · intro fp draws name mean std_dev k v hv htr
    simp only [processEntry, hv]
    rw [if_pos htr]
  · intro fp fp2 draws name mean std_dev k h0 hn2 hA hB hC hD hE
    simp only [processEntry, h0, hn2]
    rw [if_neg (by decide : ¬((Val.num 0).truthy = true))]
    have hadj : adjustMean fp2 name mean std_dev =
        adjustMean fp name mean std_dev := by
      simp only [adjustMean, hA, hB, hC, hD]
    have hsample : ∀ m1, sampleValue fp2 draws name m1 std_dev k =
        sampleValue fp draws name m1 std_dev k := by
      intro m1
      simp only [sampleValue, lookupN, hE]
    rw [hadj]
    cases adjustMean fp name mean std_dev with
    | none => rfl
    | some m1 => exact (hsample m1).symm

/-- An interactive override of `property_price = 0`, alone in
fixed_params. -/
def fpC8 : List (String × Val) := [ ("property_price", Val.num 0) ]

/-- Counterexample to C8 as stated: with the override `property_price = 0`
the sampler does NOT use 0 as the variable's value — the truthiness check
`if param_fixed_value:` rejects it and a fresh draw is taken instead
(here the draw 1 yields 750000 + 50000·1 = 800000). -/
theorem override_zero_ignored_counterexample :
    List.lookup "property_price" fpC8 = some (Val.num 0) ∧
    processEntry fpC8 (fun _ => 1) "property_price" 750000 50000 0 =
      some (Val.num 800000, 1) ∧
    Val.num 800000 ≠ Val.num 0 := by
  refine ⟨rfl, ?_, by decide⟩
  have h0 : List.lookup "property_price" fpC8 = some (Val.num 0) := rfl
  have hadj : adjustMean fpC8 "property_price" 750000 50000 =
      some 750000 := by rfl
  have hcond : (containsSubstr "annual" "property_price" &&
      !(CONFIG.any (fun e =>
        e.1 == "property_price" ++ "_growth_rate"))) = false := by decide
  simp only [processEntry, h0]
  rw [if_neg (by decide : ¬((Val.num 0).truthy = true))]
  rw [hadj]
  simp only [sampleValue, hcond, Bool.false_eq_true, if_false, gauss]
  norm_num

/-- Witness for `override_bypass_iff_truthy`: a truthy override 5 is
stored verbatim, and the zero override of `fpC8` behaves exactly like the
empty fixed-params record. -/
theorem override_bypass_iff_truthy_witness :
    List.lookup "x" [("x", Val.num 5)] = some (Val.num 5) ∧
    (Val.num 5).truthy = true ∧
    processEntry [("x", Val.num 5)] zeroDraws "x" 750000 50000 0 =
      some (Val.num 5, 0) ∧
    processEntry fpC8 zeroDraws "property_price" 750000 50000 0 =
      processEntry ([] : List (String × Val)) zeroDraws "property_price"
        750000 50000 0 :=
  ⟨rfl, rfl,
    override_bypass_iff_truthy.1 [("x", Val.num 5)] zeroDraws "x" 750000
      50000 0 (Val.num 5) rfl rfl,
    override_bypass_iff_truthy.2 fpC8 [] zeroDraws "property_price" 750000
      50000 0 rfl rfl rfl rfl rfl rfl rfl⟩

lemma processEntry_shape (fp : List (String × Val)) (draws : ℕ → ℚ)
    (name : String) (mean std_dev : ℚ) (k : ℕ) (N : ℕ)
    (hnone : List.lookup name fp = none)
    (hN : lookupN fp "n_years" = some N) :
    ∀ value k1, processEntry fp draws name mean std_dev k =
        some (value, k1) →
      (∃ q, value = Val.num q) ∨
      (∃ l, value = Val.seq l ∧
        l.length = if containsSubstr "growth_rate" name then N - 1 else N) := by
  intro value k1 h
  simp only [processEntry, hnone] at h
  cases hadj : adjustMean fp name mean std_dev with
  | none => simp only [hadj] at h; exact Option.noConfusion h
  | some m1 =>
    simp only [hadj, sampleValue] at h
    by_cases hcond : (containsSubstr "annual" name &&
        !(CONFIG.any (fun e => e.1 == name ++ "_growth_rate"))) = true
    · rw [if_pos hcond] at h
      simp only [hN, Option.some.injEq, Prod.mk.injEq] at h
      right
      exact ⟨_, h.1.symm, by rw [gaussList_length]⟩
    · rw [if_neg hcond] at h
      simp only [Option.some.injEq, Prod.mk.injEq] at h
      left
      exact ⟨_, h.1.symm⟩

lemma firstPass_shape (fp : List (String × Val)) (draws : ℕ → ℚ) (N : ℕ)
    (hN : lookupN fp "n_years" = some N) :
    ∀ (cfg : List (String × ℚ × ℚ)) (k : ℕ) (out : List (String × Val))
      (k2 : ℕ),
      (∀ e ∈ cfg, List.lookup e.1 fp = none) →
      firstPass fp draws cfg k = some (out, k2) →
      out.map Prod.fst = cfg.map Prod.fst ∧
      (∀ nm v, (nm, v) ∈ out → ∀ l, v = Val.seq l →
        l.length = if containsSubstr "growth_rate" nm then N - 1 else N) := by
  intro cfg
  induction cfg with
  | nil =>
    intro k out k2 hov h
    simp only [firstPass, Option.some.injEq, Prod.mk.injEq] at h
    obtain ⟨ho, -⟩ := h
    subst ho
    exact ⟨rfl, by simp⟩
  | cons e rest ih =>
    obtain ⟨name, mean, std_dev⟩ := e
    intro k out k2 hov h
    simp only [firstPass] at h
    cases hpe : processEntry fp draws name mean std_dev k with
    | none => simp only [hpe] at h; exact Option.noConfusion h
    | some vk =>
      obtain ⟨value, k1⟩ := vk
      simp only [hpe] at h
      cases hfp : firstPass fp draws rest k1 with
      | none => simp only [hfp] at h; exact Option.noConfusion h
      | some p =>
        obtain ⟨out2, k3⟩ := p
        simp only [hfp, Option.map_some', Option.some.injEq,
          Prod.mk.injEq] at h
        obtain ⟨ho, -⟩ := h
        subst ho
        obtain ⟨hmap, hmem⟩ := ih k1 out2 k3
          (fun e2 he2 => hov e2 (List.mem_cons_of_mem _ he2)) hfp
        constructor
        · simp only [List.map_cons, hmap]
        · intro nm v hm l hvl
          rcases List.mem_cons.mp hm with h1 | h1
          · obtain ⟨he1, he2⟩ := Prod.mk.injEq .. ▸ h1
            subst he1
            subst he2
            rcases processEntry_shape fp draws nm mean std_dev k N
              (hov (nm, mean, std_dev) (List.mem_cons_self _ _)) hN
              v k1 hpe with ⟨q, hq⟩ | ⟨l2, hl2, hlen⟩
            · rw [hq] at hvl; exact Val.noConfusion hvl
            · rw [hl2] at hvl
              obtain rfl : l2 = l := Val.seq.inj hvl
              exact hlen
          · exact hmem nm v h1 l hvl

lemma secondPass_shape (fp : List (String × Val)) (N : ℕ) (hN : N ≠ 0) :
    ∀ (names : List String) (sp out : List (String × Val)),
      secondPass fp names sp = some out →
      (∀ nm v, (nm, v) ∈ sp → ∀ l, v = Val.seq l →
        l.length = if containsSubstr "growth_rate" nm then N - 1 else N) →
      (∀ nm, nm ∈ names → containsSubstr "growth_rate" nm = true →
        List.lookup (nm ++ "_growth_rate") sp = none) →
      ∀ nm v, (nm, v) ∈ out → ∀ l, v = Val.seq l →
        l.length = if containsSubstr "growth_rate" nm then N - 1 else N := by
  intro names
  induction names with
  | nil =>
    intro sp out h hinv hgr
    simp only [secondPass, Option.some.injEq] at h
    subst h
    exact hinv
  | cons name rest ih =>
    intro sp out h hinv hgr
    simp only [secondPass] at h
    cases hpair : List.lookup (name ++ "_growth_rate") sp with
    | none =>
      simp only [hpair] at h
      exact ih sp out h hinv
        (fun nm hm => hgr nm (List.mem_cons_of_mem _ hm))
    | some gv =>
      simp only [hpair] at h
      cases hrs : gv.toSeq with
      | none => simp only [hrs] at h; exact Option.noConfusion h
      | some rates =>
        simp only [hrs] at h
        cases hcur : List.lookup name sp with
        | none => simp only [hcur] at h; exact Option.noConfusion h
        | some cur =>
          simp only [hcur] at h
          cases hseed : cur.toQ with
          | none => simp only [hseed] at h; exact Option.noConfusion h
          | some seed =>
            simp only [hseed] at h
            cases hexp : expandGrowth fp sp name seed rates with
            | none => simp only [hexp] at h; exact Option.noConfusion h
            | some value =>
              simp only [hexp] at h
              have hnamegr : containsSubstr "growth_rate" name = false := by
                cases hng : containsSubstr "growth_rate" name with
                | false => rfl
                | true =>
                  have hnone := hgr name (List.mem_cons_self _ _) hng
                  rw [hnone] at hpair
                  exact Option.noConfusion hpair
              have hgv_seq : gv = Val.seq rates := by
                cases gv with
                | num q => simp [Val.toSeq] at hrs
                | bool b => simp [Val.toSeq] at hrs
                | seq l2 => simp only [Val.toSeq, Option.some.injEq] at hrs
                            rw [hrs]
              have hrates_len : rates.length = N - 1 := by
                have hmem := lookup_mem hpair
                have := hinv _ _ hmem rates hgv_seq
                rwa [if_pos (containsSubstr_growth name)] at this
              have hvalue_len : value.length = N := by
                have hl := expandGrowthLoop_length fp sp name rates 0 seed
                  [seed] value hexp
                simp only [List.length_cons, List.length_nil] at hl
                omega
              apply ih (updateAssoc sp name (Val.seq value)) out h
              · intro nm v hm l hvl
                rcases mem_updateAssoc hm with ⟨he1, he2⟩ | hm2
                · subst he1
                  subst he2
                  obtain rfl : value = l := Val.seq.inj hvl
                  rw [hnamegr]
                  simpa using hvalue_len
                · exact hinv nm v hm2 l hvl
              · intro nm hmrest hnmgr
                have hprev := hgr nm (List.mem_cons_of_mem _ hmrest) hnmgr
                by_cases heq : nm ++ "_growth_rate" = name
                · exfalso
                  have hcg := containsSubstr_growth nm
                  rw [heq, hnamegr] at hcg
                  exact Bool.noConfusion hcg
                · rw [lookup_updateAssoc_ne sp name _ (Val.seq value) heq]
                  exact hprev

lemma buildHomeownerCosts_length (hoCosts : List ℚ) (mpi : ℚ) (term : ℕ) :
    ∀ (idxs : List ℕ) (cs : List ℚ),
      buildHomeownerCosts hoCosts mpi term idxs = some cs →
      cs.length = idxs.length := by
  intro idxs
  induction idxs with
  | nil =>
    intro cs h
    simp only [buildHomeownerCosts, Option.some.injEq] at h
    subst h
    rfl
  | cons i rest ih =>
    intro cs h
    simp only [buildHomeownerCosts] at h
    cases hc : hoCosts[i]? with
    | none => simp only [hc] at h; exact Option.noConfusion h
    | some c =>
      simp only [hc] at h
      cases hb : buildHomeownerCosts hoCosts mpi term rest with
      | none => simp only [hb] at h; exact Option.noConfusion h
      | some cs2 =>
        simp only [hb, Option.map_some', Option.some.injEq] at h
        subst h
        simp only [List.length_cons, ih cs2 hb]

lemma buildRenterCosts_length (rcs mcs mss : List ℚ) :
    ∀ (idxs : List ℕ) (cs : List ℚ),
      buildRenterCosts rcs mcs mss idxs = some cs →
      cs.length = idxs.length := by
  intro idxs
  induction idxs with
  | nil =>
    intro cs h
    simp only [buildRenterCosts, Option.some.injEq] at h
    subst h
    rfl
  | cons i rest ih =>
    intro cs h
    simp only [buildRenterCosts] at h
    cases hr : rcs[i]? with
    | none => simp only [hr] at h; exact Option.noConfusion h
    | some rc =>
      cases hm : mcs[i]? with
      | none => simp only [hr, hm] at h; exact Option.noConfusion h
      | some mc =>
        cases hs : mss[i]? with
        | none => simp only [hr, hm, hs] at h; exact Option.noConfusion h
        | some ms =>
          simp only [hr, hm, hs] at h
          cases hb : buildRenterCosts rcs mcs mss rest with
          | none => simp only [hb] at h; exact Option.noConfusion h
          | some cs2 =>
            simp only [hb, Option.map_some', Option.some.injEq] at h
            subst h
            simp only [List.length_cons, ih cs2 hb]

/-- C7 (corrected): on the shipped configuration (`n_years = 20`), every
sequence-valued parameter produced by a successful run of the Parameter
Sampler has exactly `n_years` entries — including the
`annual_rental_market_price` anchor series — except the two growth-rate
series (names containing "growth_rate"), which have `n_years - 1` entries
(first conjunct); and every per-year cost sequence the projections build
from the sampled parameters — the homeowner total-cost list (second
conjunct) and the renter total-cost list (third conjunct) — has exactly
`n_years` entries. -/
theorem sampled_sequence_lengths :
    (∀ (draws : ℕ → ℚ) (sp : List (String × Val)),
      generate_params shippedFixedParams draws = some sp →
      ∀ nm v, (nm, v) ∈ sp → ∀ l, v = Val.seq l →
        l.length = if containsSubstr "growth_rate" nm then 19 else 20) ∧
    (∀ (fp sp : List (String × Val)) (n : ℕ) (epv rb inc : ℚ)
      (costs : List ℚ) (sa : ℚ × List ℚ),
      lookupN fp "n_years" = some n →
      run_homeowner_simulation fp sp = some (epv, costs, rb, inc, sa) →
      costs.length = n) ∧
    (∀ (fp sp : List (String × Val)) (hc : List ℚ) (inc : ℚ) (n : ℕ)
      (stock : ℚ × List ℚ) (costs : List ℚ),
      lookupN fp "n_years" = some n →
      run_renter_simulation fp sp hc inc = some (stock, costs) →
      costs.length = n) := by
  refine ⟨?_, ?_, ?_⟩
  · intro draws sp h
    have hN : lookupN shippedFixedParams "n_years" = some 20 := by decide
    unfold generate_params at h
    cases hfp : firstPass shippedFixedParams draws CONFIG 0 with
    | none => rw [hfp] at h; exact Option.noConfusion h
    | some p =>
      obtain ⟨out0, k2⟩ := p
      rw [hfp] at h
      obtain ⟨hkeys, hinv⟩ := firstPass_shape shippedFixedParams draws 20 hN
        CONFIG 0 out0 k2 (by decide) hfp
      have hgr : ∀ nm, nm ∈ out0.map Prod.fst →
          containsSubstr "growth_rate" nm = true →
          List.lookup (nm ++ "_growth_rate") out0 = none := by
        intro nm hmem hnmgr
        apply lookup_none_of_not_mem
        rw [hkeys] at hmem ⊢
        simp only [CONFIG, List.map_cons, List.map_nil, List.mem_cons,
          List.not_mem_nil, or_false] at hmem
        rcases hmem with rfl | rfl | rfl | rfl | rfl | rfl | rfl | rfl | rfl
          | rfl | rfl | rfl
        all_goals first
          | exact absurd hnmgr (by decide)
          | decide
      have hfinal := secondPass_shape shippedFixedParams 20 (by decide)
        (out0.map Prod.fst) out0 sp h hinv hgr
      intro nm v hm l hvl
      have hlen := hfinal nm v hm l hvl
      simpa using hlen
  · intro fp sp n epv rb inc costs sa hn h
    unfold run_homeowner_simulation at h
    cases h1 : lookupQ sp "property_price" with
    | none => simp only [h1] at h; exact Option.noConfusion h
    | some property_price =>
      simp only [h1] at h
      cases h2 : lookupQ sp "mortgage_rate" with
      | none => simp only [h2] at h; exact Option.noConfusion h
      | some mortgage_rate =>
        simp only [h2] at h
        cases h3 : lookupN fp "loan_term_years" with
        | none => simp only [h3] at h; exact Option.noConfusion h
        | some loan_term_years =>
          simp only [h3] at h
          cases h4 : lookupQ fp "down_payment" with
          | none => simp only [h4] at h; exact Option.noConfusion h
          | some down_payment =>
            simp only [h4] at h
            cases h5 : calculate_monthly_mortgage_principal_and_interest
                property_price mortgage_rate loan_term_years down_payment with
            | none => simp only [h5] at h; exact Option.noConfusion h
            | some q =>
              obtain ⟨m, principal, interest_rate, n_payments_total⟩ := q
              simp only [h5] at h
              cases h6 : homeownerIncome fp (m * (MONTHS_PER_YEAR : ℚ)) with
              | none => simp only [h6] at h; exact Option.noConfusion h
              | some annual_income =>
                simp only [h6] at h
                cases h7 : lookupSeq sp "annual_housing_market_return" with
                | none => simp only [h7] at h; exact Option.noConfusion h
                | some housing_returns =>
                  simp only [h7] at h
                  cases h8 : lookupSeq sp "annual_homeowner_cost" with
                  | none => simp only [h8] at h; exact Option.noConfusion h
                  | some annual_homeowner_costs =>
                    simp only [h8] at h
                    cases h9 : lookupN fp "n_years" with
                    | none => simp only [h9] at h; exact Option.noConfusion h
                    | some n_years =>
                      simp only [h9] at h
                      obtain rfl : n = n_years :=
                        Option.some.inj (hn.symm.trans h9)
                      cases h10 : buildHomeownerCosts annual_homeowner_costs
                          (m * (MONTHS_PER_YEAR : ℚ)) loan_term_years
                          (List.range n) with
                      | none => simp only [h10] at h
                                exact Option.noConfusion h
                      | some costs0 =>
                        simp only [h10] at h
                        cases costs0 with
                        | nil => exact Option.noConfusion h
                        | cons c0 crest =>
                          cases h11 : remainingBalanceAtHorizon principal
                              interest_rate n_payments_total loan_term_years
                              n with
                          | none => simp only [h11] at h
                                    exact Option.noConfusion h
                          | some remaining_mortgage_balance =>
                            simp only [h11] at h
                            cases h12 : calculate_stock_assets annual_income
                                ((c0 + property_price * down_payment) ::
                                  crest) fp sp with
                            | none => simp only [h12] at h
                                      exact Option.noConfusion h
                            | some stock_assets =>
                              simp only [h12, Option.some.injEq,
                                Prod.mk.injEq] at h
                              obtain ⟨-, hcosts, -, -, -⟩ := h
                              have hlen0 := buildHomeownerCosts_length
                                annual_homeowner_costs
                                (m * (MONTHS_PER_YEAR : ℚ)) loan_term_years
                                (List.range n) (c0 :: crest) h10
                              rw [← hcosts]
                              simpa using hlen0
  · intro fp sp hc inc n stock costs hn h
    unfold run_renter_simulation at h
    cases h1 : lookupSeq sp "annual_rental_cost" with
    | none => simp only [h1] at h; exact Option.noConfusion h
    | some annual_rental_costs =>
      simp only [h1] at h
      cases h2 : lookupSeq sp "amortized_annual_moving_cost" with
      | none => simp only [h2] at h; exact Option.noConfusion h
      | some moving_costs =>
        simp only [h2] at h
        cases h3 : lookupSeq sp "amortized_annual_moving_saving" with
        | none => simp only [h3] at h; exact Option.noConfusion h
        | some moving_savings =>
          simp only [h3] at h
          cases h4 : lookupN fp "n_years" with
          | none => simp only [h4] at h; exact Option.noConfusion h
          | some n_years =>
            simp only [h4] at h
            obtain rfl : n = n_years := Option.some.inj (hn.symm.trans h4)
            cases h5 : buildRenterCosts annual_rental_costs moving_costs
                moving_savings (List.range n) with
            | none => simp only [h5] at h; exact Option.noConfusion h
            | some rcosts =>
              simp only [h5] at h
              cases h6 : calculate_stock_assets inc rcosts fp sp with
              | none => simp only [h6] at h; exact Option.noConfusion h
              | some sa =>
                simp only [h6, Option.some.injEq, Prod.mk.injEq] at h
                obtain ⟨-, hcosts⟩ := h
                have hlen0 := buildRenterCosts_length annual_rental_costs
                  moving_costs moving_savings (List.range n) rcosts h5
                rw [← hcosts]
                simpa using hlen0

/-- Counterexample to C7 as stated: under the all-zero draw stream the
sampler succeeds and the rental-market-price anchor series — a
sequence-valued parameter whose name does not contain "growth_rate" — has
exactly `n_years = 20` entries, not the `n_years + 1 = 21` the claim
asserts for it. -/
theorem anchor_series_length_counterexample :
    generate_params shippedFixedParams zeroDraws = some spZero ∧
    List.lookup "annual_rental_market_price" spZero =
      some (Val.seq anchorZero) ∧
    containsSubstr "growth_rate" "annual_rental_market_price" = false ∧
    anchorZero.length = 20 ∧ (20 : ℕ) ≠ 20 + 1 :=
  ⟨rfl, rfl, by decide, rfl, by decide⟩

/-- Fixed parameters for the concrete homeowner evaluation: one-year
horizon and loan, no down payment, a truthy income override of 1000, no
tax ratio, no initial net worth. -/
def fpH : List (String × Val) :=
  [ ("n_years", Val.num 1),
    ("loan_term_years", Val.num 1),
    ("down_payment", Val.num 0),
    ("annual_income", Val.num 1000),
    ("taxes_and_nonhousing_cost_of_living_to_income_ratio", Val.num 0),
    ("initial_net_worth", Val.num 0) ]

/-- Simulation parameters for the concrete homeowner evaluation: a free
property (price 0) at rate 12 (so the amortization denominator is
nonzero), carrying cost 10, flat markets. -/
def spH : List (String × Val) :=
  [ ("property_price", Val.num 0),
    ("mortgage_rate", Val.num 12),
    ("annual_housing_market_return", Val.seq [0]),
    ("annual_homeowner_cost", Val.seq [10]),
    ("annual_stock_market_return", Val.seq [0]) ]

lemma run_homeowner_evalH :
    run_homeowner_simulation fpH spH = some (0, [10], 0, 1000, (990, [])) := by
  have e1 : lookupQ spH "property_price" = some 0 := by rfl
  have e2 : lookupQ spH "mortgage_rate" = some 12 := by rfl
  have e3 : lookupN fpH "loan_term_years" = some 1 := by rfl
  have e4 : lookupQ fpH "down_payment" = some 0 := by rfl
  have e5 : List.lookup "annual_income" fpH = some (Val.num 1000) := by rfl
  have etr : (Val.num 1000).truthy = true := by rfl
  have e6 : lookupSeq spH "annual_housing_market_return" = some [0] := by rfl
  have e7 : lookupSeq spH "annual_homeowner_cost" = some [10] := by rfl
  have e8 : lookupN fpH "n_years" = some 1 := by rfl
  have e9 : lookupQ fpH
      "taxes_and_nonhousing_cost_of_living_to_income_ratio" = some 0 := by
    rfl
  have e10 : lookupQ fpH "initial_net_worth" = some 0 := by rfl
  have e11 : lookupSeq spH "annual_stock_market_return" = some [0] := by rfl
  simp only [run_homeowner_simulation, e1, e2, e3, e4,
    calculate_monthly_mortgage_principal_and_interest, qdiv,
    MONTHS_PER_YEAR, homeownerIncome, e5, etr, if_true, Val.toQ, e6, e7, e8,
    buildHomeownerCosts, remainingBalanceAtHorizon,
    calculate_stock_assets, e9, e10, e11, stockLoop, stockYearUpdate,
    List.range_succ, List.range_zero]
  norm_num

/-- Witness for `sampled_sequence_lengths`: the all-zero draw stream
produces the concrete parameter dict `spZero` and the theorem applies to
it; concrete one-year homeowner and renter runs produce cost lists of
length exactly 1. -/
theorem sampled_sequence_lengths_witness :
    generate_params shippedFixedParams zeroDraws = some spZero ∧
    (∀ nm v, (nm, v) ∈ spZero → ∀ l, v = Val.seq l →
      l.length = if containsSubstr "growth_rate" nm then 19 else 20) ∧
    run_homeowner_simulation fpH spH = some (0, [10], 0, 1000, (990, [])) ∧
    [(10 : ℚ)].length = 1 ∧
    run_renter_simulation fpR spR [5] 20 = some ((10, []), [10]) ∧
    [(10 : ℚ)].length = 1 :=
  ⟨rfl, sampled_sequence_lengths.1 zeroDraws spZero rfl,
    run_homeowner_evalH,
    sampled_sequence_lengths.2.1 fpH spH 1 0 0 1000 [10] (990, []) rfl
      run_homeowner_evalH,
    run_renter_evalR,
    sampled_sequence_lengths.2.2 fpR spR [5] 20 1 (10, []) [10] rfl
      run_renter_evalR⟩
